import Mathlib

/-!
# Verification of the zeno transpiler front-end

Shallow embedding of `src/zeno/src/lexer.rs`, `src/zeno/src/parser.rs` and
`src/zeno/src/generator.rs`, together with proofs settling the specification
claims about them.

Conventions of the embedding:

* The lexer's input is the byte slice `&[u8]`, modelled as `List Nat`.
  In the Rust struct the invariant `read_position = position + 1` holds after
  construction and is preserved by `read_char`, and `ch` always equals
  `input[position]` (or `0` past the end).  The whole lexer state is therefore
  just the cursor `position`, and `ch` / `peek_char()` are the derived reads
  `chAt input pos` / `chAt input (pos+1)`.
* Each Rust loop is either compiled to well-founded recursion on
  `input.length - pos` (the loop body moves the cursor right and runs only
  while `ch ≠ 0`, i.e. while `pos < input.length`), or — where the termination
  argument needs lemmas proved later in the file — to structural recursion on
  an explicit fuel that the caller instantiates with `input.length + 2`, a
  bound that the cursor-progress lemmas below show is never exhausted.
* Strings owned by tokens are `List Char` (Rust pushes `self.ch as char`,
  i.e. `Char.ofNat` of the byte).
* `i64` is `Int`; the overflow check of `str::parse::<i64>` on an unsigned
  digit string is the comparison with `2^63 - 1`.
-/

/-- ASCII source text to the byte sequence handed to `Lexer::new`
(`String::as_bytes`). -/
def String.toBytes (s : String) : List Nat := s.data.map Char.toNat

namespace Zeno

/-- `Token` from lexer.rs lines 1-54. -/
inductive Token where
  | illegal (c : Char)
  | eof
  | identifier (name : List Char)
  | integer (val : Int)
  | float (lexeme : List Char)
  | string (s : List Char)
  | letT | mutT | ifT | elseT | loopT | whileT | forT | fnT | returnT
  | trueT | falseT | printT | printlnT | breakT | continueT
  | assign | plus | minus | multiply | divide | modulo | bang
  | eq | notEq | lt | lte | gt | gte | and | or
  | comma | semicolon | colon | lparen | rparen | lbrace | rbrace
deriving DecidableEq, Repr

/-- Current byte under examination: `self.ch` (0 signifies EOF), lexer.rs 76-84. -/
def chAt (input : List Nat) (pos : Nat) : Nat := input.getD pos 0

/-- `u8::is_ascii_whitespace` (space, \t, \n, \x0C, \r). -/
def isWhitespaceByte (b : Nat) : Bool :=
  b == 9 || b == 10 || b == 12 || b == 13 || b == 32

/-- Letter or underscore: the byte range of the identifier-start match arm,
lexer.rs 277. -/
def isLetterByte (b : Nat) : Bool :=
  (65 ≤ b && b ≤ 90) || (97 ≤ b && b ≤ 122) || b == 95

/-- ASCII digit. -/
def isDigitByte (b : Nat) : Bool := 48 ≤ b && b ≤ 57

/-- `skip_whitespace`, lexer.rs 94-98.  Fuel-indexed structural recursion:
every iteration requires a whitespace byte, hence `pos < input.length`, so
the fuel `input.length + 1` used at every call site is never exhausted. -/
def skip_whitespace (input : List Nat) : Nat → Nat → Nat
  | 0, pos => pos
  | fuel + 1, pos =>
    if isWhitespaceByte (chAt input pos) then skip_whitespace input fuel (pos + 1)
    else pos

/-- Body of the single-line-comment loop, lexer.rs 103-105:
advance while `ch ≠ '\n' && ch ≠ 0` (each iteration has `pos < input.length`,
so fuel `input.length + 1` suffices). -/
def skipLineBody (input : List Nat) : Nat → Nat → Nat
  | 0, pos => pos
  | fuel + 1, pos =>
    if chAt input pos ≠ 10 ∧ chAt input pos ≠ 0 then
      skipLineBody input fuel (pos + 1)
    else pos

/-- Body of the multi-line-comment loop, lexer.rs 112-123: stop on EOF, or
consume the two bytes of `*/` and stop, else advance one byte. -/
def skipBlockBody (input : List Nat) : Nat → Nat → Nat
  | 0, pos => pos
  | fuel + 1, pos =>
    if chAt input pos = 0 then pos
    else if chAt input pos = 42 ∧ chAt input (pos + 1) = 47 then pos + 2
    else skipBlockBody input fuel (pos + 1)

/-- `skip_comment`, lexer.rs 100-128.  Returns whether a comment was skipped
and the new cursor; both comment forms re-skip whitespace at the end. -/
def skip_comment (input : List Nat) (pos : Nat) : Bool × Nat :=
  if chAt input pos = 47 ∧ chAt input (pos + 1) = 47 then
    (true, skip_whitespace input (input.length + 1)
      (skipLineBody input (input.length + 1) pos))
  else if chAt input pos = 47 ∧ chAt input (pos + 1) = 42 then
    (true, skip_whitespace input (input.length + 1)
      (skipBlockBody input (input.length + 1) (pos + 2)))
  else (false, pos)

/-- The `while self.skip_comment() {}` loop of `next_token`, lexer.rs 205-207.
Fuel-indexed; every `true` iteration strictly advances the cursor (proved
below), so the fuel `input.length + 2` used by `next_token` never runs out. -/
def skipCommentsFuel (input : List Nat) : Nat → Nat → Nat
  | 0, pos => pos
  | fuel + 1, pos =>
    match skip_comment input pos with
    | (true, p') => skipCommentsFuel input fuel p'
    | (false, _) => pos

/-- End of the maximal identifier run, lexer.rs 130-136. -/
def identEnd (input : List Nat) : Nat → Nat → Nat
  | 0, pos => pos
  | fuel + 1, pos =>
    if isLetterByte (chAt input pos) || isDigitByte (chAt input pos) then
      identEnd input fuel (pos + 1)
    else pos

/-- End of a maximal digit run, lexer.rs 141-143. -/
def digitsEnd (input : List Nat) : Nat → Nat → Nat
  | 0, pos => pos
  | fuel + 1, pos =>
    if isDigitByte (chAt input pos) then digitsEnd input fuel (pos + 1)
    else pos

/-- The slice `&self.input[a..b]`. -/
def slice (input : List Nat) (a b : Nat) : List Nat := (input.drop a).take (b - a)

/-- Numeric value of a digit-byte string, the semantics of
`str::parse::<i64>` on an unsigned decimal numeral. -/
def digitsVal (ds : List Nat) : Nat := ds.foldl (fun acc d => acc * 10 + (d - 48)) 0

/-- Keyword table of `next_token`'s identifier arm, lexer.rs 279-296. -/
def lookupIdent (s : List Char) : Token :=
  if s = ("let").toList then Token.letT
  else if s = ("mut").toList then Token.mutT
  else if s = ("if").toList then Token.ifT
  else if s = ("else").toList then Token.elseT
  else if s = ("loop").toList then Token.loopT
  else if s = ("while").toList then Token.whileT
  else if s = ("for").toList then Token.forT
  else if s = ("fn").toList then Token.fnT
  else if s = ("return").toList then Token.returnT
  else if s = ("true").toList then Token.trueT
  else if s = ("false").toList then Token.falseT
  else if s = ("print").toList then Token.printT
  else if s = ("println").toList then Token.printlnT
  else if s = ("break").toList then Token.breakT
  else if s = ("continue").toList then Token.continueT
  else Token.identifier s

/-- `read_number`, lexer.rs 138-172.  Consume digits; a `.` followed by a
digit switches to a float lexeme (carried raw).  An integer lexeme is parsed
as `i64`; on overflow (`parse` fails, value above `i64::MAX`) the code
returns `Token::Integer(0)`. -/
def read_number (input : List Nat) (pos : Nat) : Token × Nat :=
  let e1 := digitsEnd input (input.length + 1) pos
  if chAt input e1 = 46 ∧ isDigitByte (chAt input (e1 + 1)) = true then
    let e2 := digitsEnd input (input.length + 1) (e1 + 1)
    (Token.float ((slice input pos e2).map Char.ofNat), e2)
  else
    let v := digitsVal (slice input pos e1)
    (if v ≤ 9223372036854775807 then Token.integer (Int.ofNat v) else Token.integer 0, e1)

/-- The character-collection loop of `read_string`, lexer.rs 178-196.
Returns `none` at EOF before the closing quote (the `Err` branch), otherwise
the collected characters and the position just past the closing quote.
Each iteration has `pos < input.length`, so fuel `input.length + 1`
suffices. -/
def readStringLoop (input : List Nat) : Nat → Nat → List Char →
    Option (List Char) × Nat
  | 0, pos, _ => (none, pos)
  | fuel + 1, pos, acc =>
    if chAt input pos = 34 then (some acc, pos + 1)
    else if chAt input pos = 0 then (none, pos)
    else if chAt input pos = 92 then
      let esc := chAt input (pos + 1)
      let c : Char :=
        if esc = 110 then '\n'
        else if esc = 116 then '\t'
        else if esc = 92 then '\\'
        else if esc = 34 then '\"'
        else Char.ofNat esc
      readStringLoop input fuel (pos + 2) (acc ++ [c])
    else readStringLoop input fuel (pos + 1) (acc ++ [Char.ofNat (chAt input pos)])

/-- `read_string`, lexer.rs 174-199: consume the opening quote, then loop. -/
def read_string (input : List Nat) (pos : Nat) : Option (List Char) × Nat :=
  readStringLoop input (input.length + 1) (pos + 1) []

/-- The dispatch of `next_token` after whitespace and comments have been
skipped: the `match self.ch` at lexer.rs 210-303 combined with the final
advancement logic at lexer.rs 380-392 (`current_char_consumed`).

Note the faithful reproduction of the advancement defect: for the two-byte
operators (`Eq`, `NotEq`, `Lte`, `Gte`, `And`, `Or`) the branch performs one
`read_char` and `current_char_consumed` is `false`, so the cursor ends up on
the second byte of the lexeme rather than after it. -/
def tokenAfterSkip (input : List Nat) (pos : Nat) : Token × Nat :=
  if chAt input pos = 61 then
    (if chAt input (pos + 1) = 61 then (Token.eq, pos + 1) else (Token.assign, pos + 1))
  else if chAt input pos = 43 then (Token.plus, pos + 1)
  else if chAt input pos = 45 then (Token.minus, pos + 1)
  else if chAt input pos = 33 then
    (if chAt input (pos + 1) = 61 then (Token.notEq, pos + 1) else (Token.bang, pos + 1))
  else if chAt input pos = 42 then (Token.multiply, pos + 1)
  else if chAt input pos = 47 then (Token.divide, pos + 1)
  else if chAt input pos = 37 then (Token.modulo, pos + 1)
  else if chAt input pos = 60 then
    (if chAt input (pos + 1) = 61 then (Token.lte, pos + 1) else (Token.lt, pos + 1))
  else if chAt input pos = 62 then
    (if chAt input (pos + 1) = 61 then (Token.gte, pos + 1) else (Token.gt, pos + 1))
  else if chAt input pos = 38 then
    (if chAt input (pos + 1) = 38 then (Token.and, pos + 1) else (Token.illegal '&', pos + 1))
  else if chAt input pos = 124 then
    (if chAt input (pos + 1) = 124 then (Token.or, pos + 1) else (Token.illegal '|', pos + 1))
  else if chAt input pos = 44 then (Token.comma, pos + 1)
  else if chAt input pos = 59 then (Token.semicolon, pos + 1)
  else if chAt input pos = 58 then (Token.colon, pos + 1)
  else if chAt input pos = 40 then (Token.lparen, pos + 1)
  else if chAt input pos = 41 then (Token.rparen, pos + 1)
  else if chAt input pos = 123 then (Token.lbrace, pos + 1)
  else if chAt input pos = 125 then (Token.rbrace, pos + 1)
  else if chAt input pos = 34 then
    (match read_string input pos with
     | (some s, p) => (Token.string s, p)
     | (none, p) => (Token.illegal '"', p + 1))
  else if isLetterByte (chAt input pos) then
    (lookupIdent ((slice input pos
        (identEnd input (input.length + 1) pos)).map Char.ofNat),
      identEnd input (input.length + 1) pos)
  else if isDigitByte (chAt input pos) then read_number input pos
  else if chAt input pos = 0 then (Token.eof, pos)
  else (Token.illegal (Char.ofNat (chAt input pos)), pos + 1)

/-- `next_token`, lexer.rs 201-395: skip whitespace, repeatedly skip comments
(each skip re-skips whitespace), then dispatch on the current byte. -/
def next_token (input : List Nat) (pos : Nat) : Token × Nat :=
  tokenAfterSkip input
    (skipCommentsFuel input (input.length + 2)
      (skip_whitespace input (input.length + 1) pos))

/-- Draining the lexer: the token sequence produced by repeated calls to
`next_token`, ending with the first `Eof`.  Fuel-indexed; the progress lemma
proved below shows `input.length + 2` suffices from position 0. -/
def lexFrom (input : List Nat) : Nat → Nat → List Token
  | 0, _ => []
  | fuel + 1, pos =>
    let r := next_token input pos
    if r.1 = Token.eof then [Token.eof] else r.1 :: lexFrom input fuel r.2

/-- All tokens of an input, `Eof` included. -/
def lexAll (input : List Nat) : List Token := lexFrom input (input.length + 2) 0

/-- `tokenize`, lexer.rs 398-439: drain the stream collecting tokens; an
`Illegal('"')` (unterminated string) aborts with the user-visible error;
the list ends with (and includes) `Eof`. -/
def tokenizeFuel (input : List Nat) : Nat → Nat → Except (List Char) (List Token)
  | 0, _ => Except.ok []
  | fuel + 1, pos =>
    let r := next_token input pos
    if r.1 = Token.illegal '"' then Except.error ("Unterminated string literal").toList
    else if r.1 = Token.eof then Except.ok [Token.eof]
    else
      match tokenizeFuel input fuel r.2 with
      | Except.ok ts => Except.ok (r.1 :: ts)
      | Except.error e => Except.error e

/-- `tokenize()` from position 0. -/
def tokenize (input : List Nat) : Except (List Char) (List Token) :=
  tokenizeFuel input (input.length + 2) 0


/-! ## Parser embedding (`src/zeno/src/parser.rs`)

The Rust `Parser` owns a `Lexer` and pulls one token per `next_token()` call;
past the end the lexer keeps returning `Eof` (stability proved below).  The
embedding therefore consumes the pre-drained stream `lexAll input`, padding
with `Eof` when the list is exhausted — observationally the same interface.

Parser state is the token cursor (`current_token`, `peek_token`, remaining
stream) plus the collected error list.  Only emptiness of the error list is
ever observed by `parse_program`, so the embedded error messages abbreviate
the `format!` interpolations of the source. -/

/-- `Precedence`, parser.rs 7-19, with the derived `PartialOrd` order as a
numeric rank. -/
inductive Precedence where
  | lowest | orP | andP | equals | lessgreater | sum | product | prefixP | callP
deriving DecidableEq, Repr

/-- Rank of a precedence level: the derived enum order of parser.rs 7-19. -/
def Precedence.val : Precedence → Nat
  | .lowest => 0 | .orP => 1 | .andP => 2 | .equals => 3
  | .lessgreater => 4 | .sum => 5 | .product => 6 | .prefixP => 7 | .callP => 8

/-- `PRECEDENCES` table and `token_precedence`, parser.rs 24-49
(absent tokens default to `LOWEST`). -/
def token_precedence : Token → Precedence
  | .or => .orP
  | .and => .andP
  | .eq => .equals
  | .notEq => .equals
  | .lt => .lessgreater
  | .lte => .lessgreater
  | .gt => .lessgreater
  | .gte => .lessgreater
  | .plus => .sum
  | .minus => .sum
  | .multiply => .product
  | .divide => .product
  | .modulo => .product
  | .lparen => .callP
  | _ => .lowest

/-- `is_infix_operator`, parser.rs 695-699. -/
def is_infix_operator (t : Token) : Bool :=
  match t with
  | .plus | .minus | .multiply | .divide | .modulo
  | .eq | .notEq | .lt | .lte | .gt | .gte | .and | .or => true
  | _ => false

/-- `is_prefix_operator`, parser.rs 690-692. -/
def is_prefix_operator (t : Token) : Bool :=
  match t with
  | .bang | .minus => true
  | _ => false

/-- `BinaryOperator`, ast.rs 76-90. -/
inductive BinaryOperator where
  | plus | minus | multiply | divide | modulo
  | eq | notEq | lt | lte | gt | gte | and | or
deriving DecidableEq, Repr

/-- `UnaryOperator`, ast.rs 92-96. -/
inductive UnaryOperator where
  | not | negate
deriving DecidableEq, Repr

/-- Abstraction of a Rust `f64` as far as this development needs it:
`display` is its `Display` rendering (a decimal numeral, never containing a
brace or parenthesis in Rust) and `fractZero` the result of
`val.fract() == 0.0`.  No claim below depends on binary float arithmetic. -/
structure F64 where
  display : List Char
  fractZero : Bool
deriving DecidableEq, Repr

/-- Modelled `str::parse::<f64>` as used by `parse_float_literal`
(parser.rs 558-575).  The lexer only ever produces lexemes of the shape
`digits` `.` `digits`, on which the Rust parse succeeds; the model accepts
exactly well-formed decimal numerals and abstracts the parsed value by its
lexeme normalized the way `Display` renders the parsed value (leading and
trailing zeros dropped, a zero fraction dropped entirely).  Malformed lexemes
yield `none`, matching the parse-error branch. -/
def parseF64 (s : List Char) : Option F64 :=
  if s ≠ [] ∧ (∀ c ∈ s, c.isDigit = true ∨ c = '.') ∧ s.count '.' ≤ 1 ∧
      s.head? ≠ some '.' ∧ s.getLast? ≠ some '.' then
    let intPart := s.takeWhile fun c => c ≠ '.'
    let fracPart := (s.dropWhile fun c => c ≠ '.').drop 1
    let intTrim :=
      if (intPart.dropWhile fun c => c = '0') = [] then ['0']
      else intPart.dropWhile fun c => c = '0'
    let fracTrim := (fracPart.reverse.dropWhile fun c => c = '0').reverse
    some ⟨(if fracTrim = [] then intTrim else intTrim ++ ['.'] ++ fracTrim),
      fracTrim = []⟩
  else none

/-- `Expr`, ast.rs 53-73. -/
inductive Expr where
  | integer (val : Int)
  | float (val : F64)
  | stringLiteral (s : List Char)
  | boolean (b : Bool)
  | identifier (name : List Char)
  | binaryOp (left : Expr) (op : BinaryOperator) (right : Expr)
  | unaryOp (op : UnaryOperator) (e : Expr)
  | call (callee : List Char) (args : List Expr)
deriving Repr

/-- `Statement` and `Block`, ast.rs 6-51.  `Block` is a bare wrapper around
its statement list and is inlined as `List Statement`. -/
inductive Statement where
  | letDecl (name : List Char) (typeAnn : Option (List Char)) (mutable : Bool)
      (valueExpr : Expr)
  | assignment (name : List Char) (valueExpr : Expr)
  | exprStatement (e : Expr)
  | ifS (condition : Expr) (thenBlock : List Statement)
      (elseIfBlocks : List (Expr × List Statement))
      (elseBlock : Option (List Statement))
  | whileS (condition : Expr) (body : List Statement)
  | loopS (body : List Statement)
  | forS (initializer : Option Statement) (condition : Option Expr)
      (increment : Option Expr) (body : List Statement)
  | print (e : Expr) (newline : Bool)
  | breakS
  | continueS
deriving Repr

/-- `BinaryOperator` of an infix token, parser.rs 614-632 (`none` is the
"Unknown infix operator" arm). -/
def binopOfToken : Token → Option BinaryOperator
  | .plus => some .plus
  | .minus => some .minus
  | .multiply => some .multiply
  | .divide => some .divide
  | .modulo => some .modulo
  | .eq => some .eq
  | .notEq => some .notEq
  | .lt => some .lt
  | .lte => some .lte
  | .gt => some .gt
  | .gte => some .gte
  | .and => some .and
  | .or => some .or
  | _ => none

/-- `UnaryOperator` of a prefix token, parser.rs 597-604. -/
def unopOfToken : Token → Option UnaryOperator
  | .bang => some .not
  | .minus => some .negate
  | _ => none

/-- Parser state: token cursor plus collected errors, parser.rs 51-56. -/
structure ParserState where
  rest : List Token
  current : Token
  peek : Token
  errors : List (List Char)
deriving Repr

/-- `Parser::next_token`, parser.rs 71-74: shift the cursor; an exhausted
stream keeps producing `Eof` like the real lexer does. -/
def ParserState.advance (p : ParserState) : ParserState :=
  match p.rest with
  | [] => { p with current := p.peek, peek := Token.eof }
  | t :: ts => { p with current := p.peek, peek := t, rest := ts }

/-- Append an error message, as `self.errors.push(...)`. -/
def ParserState.pushError (p : ParserState) (msg : List Char) : ParserState :=
  { p with errors := p.errors ++ [msg] }

/-- `Parser::new`, parser.rs 59-69: placeholders then two `next_token` calls. -/
def ParserState.init (ts : List Token) : ParserState :=
  (ParserState.advance (ParserState.advance ⟨ts, Token.eof, Token.eof, []⟩))

/-- `peek_error` message (parser.rs 94-100); interpolations abbreviated. -/
def msgPeekError : List Char := ("expected next token to be other than got").toList

/-- "No prefix parse function for ... found" (parser.rs 507). -/
def msgNoPrefix : List Char := ("No prefix parse function for current token found").toList

/-- "Could not parse float string '...'" (parser.rs 565). -/
def msgBadFloat : List Char := ("Could not parse float string").toList

/-- "Unknown prefix operator" (parser.rs 601). -/
def msgUnknownPrefixOp : List Char := ("Unknown prefix operator").toList

/-- "Unknown infix operator" (parser.rs 629). -/
def msgUnknownInfixOp : List Char := ("Unknown infix operator").toList

/-- "Expected function name (identifier) for call" (parser.rs 659). -/
def msgCallee : List Char := ("Expected function name for call").toList

/-- "Expected expression after '=' for assignment" (parser.rs 164). -/
def msgAssignExpr : List Char := ("Expected expression after assign for assignment").toList

/-- "Expected expression after '=' for variable" (parser.rs 262). -/
def msgLetExpr : List Char := ("Expected expression after assign for variable").toList

/-- "parse_let_or_mut_statement called with unexpected token" (parser.rs 212). -/
def msgLetMut : List Char := ("let or mut dispatch with unexpected token").toList

/-- "Unterminated block: expected RBrace" (parser.rs 317). -/
def msgUnterminatedBlock : List Char := ("Unterminated block").toList

/-- "Expected LBrace after if condition" (parser.rs 335). -/
def msgIfBrace : List Char := ("Expected brace after if condition").toList

/-- "Expected LBrace after else if condition" (parser.rs 356). -/
def msgElseIfBrace : List Char := ("Expected brace after else if condition").toList

/-- "Expected LBrace for else block" (parser.rs 363). -/
def msgElseBrace : List Char := ("Expected brace for else block").toList

/-- "Expected LBrace after loop" (parser.rs 375). -/
def msgLoopBrace : List Char := ("Expected brace after loop").toList

/-- "Expected LBrace after while condition" (parser.rs 391). -/
def msgWhileBrace : List Char := ("Expected brace after while condition").toList

/-- "Expected ';' after for loop initializer" (parser.rs 421). -/
def msgForInitSemi : List Char := ("Expected semicolon after for loop initializer").toList

/-- "Expected ';' after for loop condition" (parser.rs 437). -/
def msgForCondSemi : List Char := ("Expected semicolon after for loop condition").toList

/-- "Expected LBrace for for-loop body" (parser.rs 459). -/
def msgForBrace : List Char := ("Expected brace for for loop body").toList

/-! The parse functions form one mutual block, structurally recursive on an
explicit fuel; every call passes the matched predecessor.  The source
recursion terminates because the token cursor advances; the fuel used for
each concrete run below is visibly sufficient (the bail value at fuel 0 is
never produced). -/

mutual

/-- `parse_expression`, parser.rs 495-540: prefix dispatch then infix loop. -/
def parse_expression (fuel : Nat) (prec : Precedence) (p : ParserState) :
    Option Expr × ParserState :=
  match fuel with
  | 0 => (none, p)
  | fuel + 1 =>
    let r := parsePrefixDispatch fuel p
    parseExprLoop fuel prec r.1 r.2

/-- The prefix `match self.current_token` of `parse_expression`,
parser.rs 497-510 (incorporating `parse_identifier`, `parse_integer_literal`,
`parse_float_literal`, `parse_string_literal`, `parse_boolean_literal`). -/
def parsePrefixDispatch (fuel : Nat) (p : ParserState) :
    Option Expr × ParserState :=
  match fuel with
  | 0 => (none, p)
  | fuel + 1 =>
    match p.current with
    | .identifier n => (some (Expr.identifier n), p)
    | .integer v => (some (Expr.integer v), p)
    | .float s =>
      match parseF64 s with
      | some f => (some (Expr.float f), p)
      | none => (none, p.pushError msgBadFloat)
    | .string s => (some (Expr.stringLiteral s), p)
    | .trueT => (some (Expr.boolean true), p)
    | .falseT => (some (Expr.boolean false), p)
    | .bang => parse_prefix_expression fuel p
    | .minus => parse_prefix_expression fuel p
    | .lparen => parse_grouped_expression fuel p
    | t =>
      if is_prefix_operator t then parse_prefix_expression fuel p
      else (none, p.pushError msgNoPrefix)

/-- The infix loop of `parse_expression`, parser.rs 515-538.  A `none`
accumulator reaching a binary/call arm reproduces the `?` early return. -/
def parseExprLoop (fuel : Nat) (prec : Precedence) (left : Option Expr)
    (p : ParserState) : Option Expr × ParserState :=
  match fuel with
  | 0 => (left, p)
  | fuel + 1 =>
    if p.peek ≠ Token.semicolon ∧ prec.val < (token_precedence p.peek).val then
      if ¬ (is_infix_operator p.peek = true) ∧ p.peek ≠ Token.lparen then (left, p)
      else
        let p1 := p.advance
        if (binopOfToken p1.current).isSome then
          match left with
          | none => (none, p1)
          | some l =>
            let r := parse_infix_expression fuel l p1
            parseExprLoop fuel prec r.1 r.2
        else if p1.current = Token.lparen then
          match left with
          | none => (none, p1)
          | some l =>
            let r := parse_call_expression fuel l p1
            parseExprLoop fuel prec r.1 r.2
        else (left, p1)
    else (left, p)

/-- `parse_prefix_expression`, parser.rs 594-609. -/
def parse_prefix_expression (fuel : Nat) (p : ParserState) :
    Option Expr × ParserState :=
  match fuel with
  | 0 => (none, p)
  | fuel + 1 =>
    match unopOfToken p.current with
    | none => (none, p.pushError msgUnknownPrefixOp)
    | some op =>
      let p1 := p.advance
      match parse_expression fuel Precedence.prefixP p1 with
      | (none, p2) => (none, p2)
      | (some e, p2) => (some (Expr.unaryOp op e), p2)

/-- `parse_infix_expression`, parser.rs 611-638. -/
def parse_infix_expression (fuel : Nat) (left : Expr) (p : ParserState) :
    Option Expr × ParserState :=
  match fuel with
  | 0 => (none, p)
  | fuel + 1 =>
    match binopOfToken p.current with
    | none => (none, p.pushError msgUnknownInfixOp)
    | some op =>
      let prec := token_precedence p.current
      let p1 := p.advance
      match parse_expression fuel prec p1 with
      | (none, p2) => (none, p2)
      | (some r, p2) => (some (Expr.binaryOp left op r), p2)

/-- `parse_grouped_expression`, parser.rs 640-651. -/
def parse_grouped_expression (fuel : Nat) (p : ParserState) :
    Option Expr × ParserState :=
  match fuel with
  | 0 => (none, p)
  | fuel + 1 =>
    let p1 := p.advance
    let r := parse_expression fuel Precedence.lowest p1
    if r.2.peek = Token.rparen then (r.1, r.2.advance)
    else (none, r.2.pushError msgPeekError)

/-- `parse_call_expression`, parser.rs 653-686. -/
def parse_call_expression (fuel : Nat) (funcExpr : Expr) (p : ParserState) :
    Option Expr × ParserState :=
  match fuel with
  | 0 => (none, p)
  | fuel + 1 =>
    match funcExpr with
    | .identifier callee =>
      if p.peek = Token.rparen then (some (Expr.call callee []), p.advance)
      else
        let p1 := p.advance
        match parse_expression fuel Precedence.lowest p1 with
        | (none, p2) => (none, p2)
        | (some a, p2) => parseCallArgs fuel callee [a] p2
    | _ => (none, p.pushError msgCallee)

/-- The argument loop of `parse_call_expression`, parser.rs 673-683. -/
def parseCallArgs (fuel : Nat) (callee : List Char) (acc : List Expr)
    (p : ParserState) : Option Expr × ParserState :=
  match fuel with
  | 0 => (none, p)
  | fuel + 1 =>
    if p.peek = Token.comma then
      let p1 := p.advance.advance
      match parse_expression fuel Precedence.lowest p1 with
      | (none, p2) => (none, p2)
      | (some a, p2) => parseCallArgs fuel callee (acc ++ [a]) p2
    else if p.peek = Token.rparen then (some (Expr.call callee acc), p.advance)
    else (none, p.pushError msgPeekError)

/-- `parse_statement`, parser.rs 144-204: dispatch, then the optional
trailing-semicolon suffix for the non-block statement forms.  The bare `;`
arm returns early (no suffix check). -/
def parse_statement (fuel : Nat) (p : ParserState) :
    Option Statement × ParserState :=
  match fuel with
  | 0 => (none, p)
  | fuel + 1 =>
    if p.current = Token.semicolon then (none, p)
    else
      let r := parseStatementCore fuel p
      match r.1 with
      | some s =>
        match s with
        | .letDecl _ _ _ _ | .assignment _ _ | .exprStatement _
        | .print _ _ | .breakS | .continueS =>
          if r.2.peek = Token.semicolon then (some s, r.2.advance) else (some s, r.2)
        | _ => (some s, r.2)
      | none => (none, r.2)

/-- The dispatch `match` of `parse_statement`, parser.rs 145-182. -/
def parseStatementCore (fuel : Nat) (p : ParserState) :
    Option Statement × ParserState :=
  match fuel with
  | 0 => (none, p)
  | fuel + 1 =>
    match p.current with
    | .letT => parse_let_or_mut_statement fuel p
    | .mutT => parse_let_or_mut_statement fuel p
    | .ifT => parse_if_statement fuel p
    | .loopT => parse_loop_statement fuel p
    | .whileT => parse_while_statement fuel p
    | .forT => parse_for_statement fuel p
    | .printT => parse_print_statement fuel p
    | .printlnT => parse_print_statement fuel p
    | .breakT => (some Statement.breakS, p)
    | .continueT => (some Statement.continueS, p)
    | .identifier name =>
      if p.peek = Token.assign then
        let p1 := p.advance.advance
        match parse_expression fuel Precedence.lowest p1 with
        | (some v, p2) => (some (Statement.assignment name v), p2)
        | (none, p2) => (none, p2.pushError msgAssignExpr)
      else parse_expression_statement fuel p
    | _ => parse_expression_statement fuel p

/-- `parse_expression_statement`, parser.rs 279-284. -/
def parse_expression_statement (fuel : Nat) (p : ParserState) :
    Option Statement × ParserState :=
  match fuel with
  | 0 => (none, p)
  | fuel + 1 =>
    match parse_expression fuel Precedence.lowest p with
    | (none, p1) => (none, p1)
    | (some e, p1) => (some (Statement.exprStatement e), p1)

/-- `parse_let_or_mut_statement`, parser.rs 207-275, through the optional
type annotation. -/
def parse_let_or_mut_statement (fuel : Nat) (p : ParserState) :
    Option Statement × ParserState :=
  match fuel with
  | 0 => (none, p)
  | fuel + 1 =>
    let mutb :=
      match p.current with
      | .mutT => some true
      | .letT => some false
      | _ => none
    match mutb with
    | none => (none, p.pushError msgLetMut)
    | some mutable =>
      match p.peek with
      | .identifier _ =>
        let p1 := p.advance
        match p1.current with
        | .identifier name =>
          if p1.peek = Token.colon then
            let p2 := p1.advance
            match p2.peek with
            | .identifier _ =>
              let p3 := p2.advance
              match p3.current with
              | .identifier tyName => parseLetTail fuel mutable name (some tyName) p3
              | _ => (none, p3)
            | _ => (none, p2.pushError msgPeekError)
          else parseLetTail fuel mutable name none p1
        | _ => (none, p1)
      | _ => (none, p.pushError msgPeekError)

/-- Tail of `parse_let_or_mut_statement` from the mandatory `=`,
parser.rs 251-274. -/
def parseLetTail (fuel : Nat) (mutable : Bool) (name : List Char)
    (ann : Option (List Char)) (p : ParserState) :
    Option Statement × ParserState :=
  match fuel with
  | 0 => (none, p)
  | fuel + 1 =>
    if p.peek = Token.assign then
      let p1 := p.advance.advance
      match parse_expression fuel Precedence.lowest p1 with
      | (some v, p2) => (some (Statement.letDecl name ann mutable v), p2)
      | (none, p2) => (none, p2.pushError msgLetExpr)
    else (none, p.pushError msgPeekError)

/-- `parse_block_statement`, parser.rs 286-324: consume the `{`, loop
statements until `}` or `Eof`, leave the `}` current. -/
def parse_block_statement (fuel : Nat) (p : ParserState) :
    Option (List Statement) × ParserState :=
  match fuel with
  | 0 => (none, p)
  | fuel + 1 => parseBlockLoop fuel [] p.advance

/-- The statement loop of `parse_block_statement`, parser.rs 298-323. -/
def parseBlockLoop (fuel : Nat) (acc : List Statement) (p : ParserState) :
    Option (List Statement) × ParserState :=
  match fuel with
  | 0 => (none, p)
  | fuel + 1 =>
    if p.current ≠ Token.rbrace ∧ p.current ≠ Token.eof then
      let r := parse_statement fuel p
      let acc' := match r.1 with | some s => acc ++ [s] | none => acc
      parseBlockLoop fuel acc' r.2.advance
    else if p.current = Token.rbrace then (some acc, p)
    else (none, p.pushError msgUnterminatedBlock)

/-- `parse_if_statement`, parser.rs 326-371 up to the else chain. -/
def parse_if_statement (fuel : Nat) (p : ParserState) :
    Option Statement × ParserState :=
  match fuel with
  | 0 => (none, p)
  | fuel + 1 =>
    let p0 := p.advance
    match parse_expression fuel Precedence.lowest p0 with
    | (none, p1) => (none, p1)
    | (some cond, p1) =>
      if p1.peek = Token.lbrace then
        match parse_block_statement fuel p1.advance with
        | (none, p2) => (none, p2)
        | (some thenB, p2) => parseElseChain fuel cond thenB [] p2
      else (none, (p1.pushError msgPeekError).pushError msgIfBrace)

/-- The `while self.peek_token_is(&Token::Else)` chain of
`parse_if_statement`, parser.rs 342-369. -/
def parseElseChain (fuel : Nat) (cond : Expr) (thenB : List Statement)
    (elifs : List (Expr × List Statement)) (p : ParserState) :
    Option Statement × ParserState :=
  match fuel with
  | 0 => (none, p)
  | fuel + 1 =>
    if p.peek = Token.elseT then
      let p1 := p.advance
      if p1.peek = Token.ifT then
        let p2 := p1.advance.advance
        match parse_expression fuel Precedence.lowest p2 with
        | (none, p3) => (none, p3)
        | (some c, p3) =>
          if p3.peek = Token.lbrace then
            match parse_block_statement fuel p3.advance with
            | (none, p4) => (none, p4)
            | (some b, p4) => parseElseChain fuel cond thenB (elifs ++ [(c, b)]) p4
          else (none, (p3.pushError msgPeekError).pushError msgElseIfBrace)
      else
        if p1.peek = Token.lbrace then
          match parse_block_statement fuel p1.advance with
          | (none, p2) => (none, p2)
          | (some b, p2) => (some (Statement.ifS cond thenB elifs (some b)), p2)
        else (none, (p1.pushError msgPeekError).pushError msgElseBrace)
    else (some (Statement.ifS cond thenB elifs none), p)

/-- `parse_loop_statement`, parser.rs 373-380. -/
def parse_loop_statement (fuel : Nat) (p : ParserState) :
    Option Statement × ParserState :=
  match fuel with
  | 0 => (none, p)
  | fuel + 1 =>
    if p.peek = Token.lbrace then
      match parse_block_statement fuel p.advance with
      | (none, p1) => (none, p1)
      | (some b, p1) => (some (Statement.loopS b), p1)
    else (none, (p.pushError msgPeekError).pushError msgLoopBrace)

/-- `parse_while_statement`, parser.rs 382-397. -/
def parse_while_statement (fuel : Nat) (p : ParserState) :
    Option Statement × ParserState :=
  match fuel with
  | 0 => (none, p)
  | fuel + 1 =>
    let p0 := p.advance
    match parse_expression fuel Precedence.lowest p0 with
    | (none, p1) => (none, p1)
    | (some cond, p1) =>
      if p1.peek = Token.lbrace then
        match parse_block_statement fuel p1.advance with
        | (none, p2) => (none, p2)
        | (some b, p2) => (some (Statement.whileS cond b), p2)
      else (none, (p1.pushError msgPeekError).pushError msgWhileBrace)

/-- `parse_for_statement`, parser.rs 399-466.  Note the empty-increment test
against `RParen` at parser.rs 443 — a remnant of the parenthesized-header
dialect — reproduced as in the source. -/
def parse_for_statement (fuel : Nat) (p : ParserState) :
    Option Statement × ParserState :=
  match fuel with
  | 0 => (none, p)
  | fuel + 1 =>
    let p0 := p.advance
    let ri :=
      if p0.current = Token.semicolon then ((none : Option Statement), p0)
      else parse_statement fuel p0
    let initializer := ri.1
    let p1 := ri.2
    -- mandatory ';' after the initializer slot, parser.rs 412-425
    let s1 : Option ParserState :=
      if p1.current ≠ Token.semicolon then
        if p1.peek = Token.semicolon then some p1.advance
        else none
      else some p1
    match s1 with
    | none => (none, p1.pushError msgForInitSemi)
    | some p2 =>
      let p3 := p2.advance
      let rc :=
        if p3.current = Token.semicolon then ((none : Option Expr), p3)
        else parse_expression fuel Precedence.lowest p3
      let condition := rc.1
      let p4 := rc.2
      -- mandatory ';' after the condition slot, parser.rs 433-440
      let s2 : Option ParserState :=
        if p4.current ≠ Token.semicolon then
          if p4.peek = Token.semicolon then some p4.advance
          else none
        else some p4
      match s2 with
      | none => (none, p4.pushError msgForCondSemi)
      | some p5 =>
        let p6 := p5.advance
        let rinc :=
          if p6.current = Token.rparen then ((none : Option Expr), p6)
          else parse_expression fuel Precedence.lowest p6
        let increment := rinc.1
        let p7 := rinc.2
        -- body, parser.rs 454-465
        if p7.current = Token.lbrace then
          match parse_block_statement fuel p7 with
          | (none, p8) => (none, p8)
          | (some b, p8) =>
            (some (Statement.forS initializer condition increment b), p8)
        else
          if p7.peek = Token.lbrace then
            match parse_block_statement fuel p7.advance with
            | (none, p8) => (none, p8)
            | (some b, p8) =>
              (some (Statement.forS initializer condition increment b), p8)
          else (none, (p7.pushError msgPeekError).pushError msgForBrace)

/-- `parse_print_statement`, parser.rs 468-479. -/
def parse_print_statement (fuel : Nat) (p : ParserState) :
    Option Statement × ParserState :=
  match fuel with
  | 0 => (none, p)
  | fuel + 1 =>
    let newline := p.current = Token.printlnT
    if p.peek = Token.lparen then
      let p1 := p.advance.advance
      match parse_expression fuel Precedence.lowest p1 with
      | (none, p2) => (none, p2)
      | (some e, p2) =>
        if p2.peek = Token.rparen then (some (Statement.print e newline), p2.advance)
        else (none, p2.pushError msgPeekError)
    else (none, p.pushError msgPeekError)

end

/-- The statement loop of `parse_program`, parser.rs 110-131: parse a
statement (collecting it when it yields one), then advance. -/
def parseProgramLoop (fuel : Nat) (acc : List Statement) (p : ParserState) :
    List Statement × ParserState :=
  match fuel with
  | 0 => (acc, p)
  | fuel + 1 =>
    if p.current = Token.eof then (acc, p)
    else
      let r := parse_statement fuel p
      let acc' := match r.1 with | some s => acc ++ [s] | none => acc
      parseProgramLoop fuel acc' r.2.advance

/-- `parse_program`, parser.rs 110-138, run on a token stream: `Ok(program)`
when no errors were collected, `Err(errors)` otherwise. -/
def parse_program (ts : List Token) (fuel : Nat) :
    Except (List (List Char)) (List Statement) :=
  let r := parseProgramLoop fuel [] (ParserState.init ts)
  if r.2.errors = [] then Except.ok r.1 else Except.error r.2.errors

/-- Lex and parse an ASCII source, with fuel ample for the inputs below. -/
def parseSource (input : List Nat) (fuel : Nat) :
    Except (List (List Char)) (List Statement) :=
  parse_program (lexAll input) fuel



/-! ## Emitter embedding (`src/zeno/src/generator.rs`)

Every `write!` in the source succeeds (`GenerationError` is never
constructed; the `Result` is vestigial), so the emitter is embedded as pure
functions producing the output `List Char`. -/

/-- `indent`, generator.rs 29-31: four spaces per level. -/
def indentChars (level : Nat) : List Char := List.replicate (4 * level) ' '

/-- `map_type`, generator.rs 34-43. -/
def map_type (simpleType : List Char) : List Char :=
  if simpleType = ("int").toList then ("i64").toList
  else if simpleType = ("float").toList then ("f64").toList
  else if simpleType = ("bool").toList then ("bool").toList
  else if simpleType = ("string").toList then ("String").toList
  else simpleType

/-- One lowercase hex digit. -/
def hexDigitChar (d : Nat) : Char := Char.ofNat (if d < 10 then 48 + d else 87 + d)

/-- Lowercase hex numeral, as produced by `char::escape_default`'s
`\u` escapes. -/
def toHex (n : Nat) : List Char :=
  if n < 16 then [hexDigitChar n]
  else toHex (n / 16) ++ [hexDigitChar (n % 16)]
termination_by n
decreasing_by exact Nat.div_lt_self (by omega) (by omega)

/-- `char::escape_default` for one character: the named escapes, printable
ASCII verbatim, everything else as a `\u` hex escape (with its balanced
brace pair, written here via code points 123/125). -/
def escapeDefaultChar (c : Char) : List Char :=
  if c = '\t' then ['\\', 't']
  else if c = '\n' then ['\\', 'n']
  else if c = Char.ofNat 13 then ['\\', 'r']
  else if c = '\\' then ['\\', '\\']
  else if c = '\'' then ['\\', '\'']
  else if c = '\"' then ['\\', '\"']
  else if 32 ≤ c.toNat ∧ c.toNat ≤ 126 then [c]
  else ['\\', 'u', Char.ofNat 123] ++ toHex c.toNat ++ [Char.ofNat 125]

/-- `s.escape_default()` over a string, generator.rs 171. -/
def escapeDefault (s : List Char) : List Char := s.flatMap escapeDefaultChar

/-- The operator spellings of generator.rs 179-193. -/
def binopText : BinaryOperator → List Char
  | .plus => (" + ").toList
  | .minus => (" - ").toList
  | .multiply => (" * ").toList
  | .divide => (" / ").toList
  | .modulo => (" % ").toList
  | .eq => (" == ").toList
  | .notEq => (" != ").toList
  | .lt => (" < ").toList
  | .lte => (" <= ").toList
  | .gt => (" > ").toList
  | .gte => (" >= ").toList
  | .and => (" && ").toList
  | .or => (" || ").toList

/-- The unary spellings of generator.rs 200-203. -/
def unopText : UnaryOperator → List Char
  | .not => ("!").toList
  | .negate => ("-").toList

/-- `String::trim_start` as applied to the regenerated initializer of a
`for` statement (generator.rs 114); the leading characters there are ASCII
whitespace. -/
def trimStart (s : List Char) : List Char := s.dropWhile fun c => c.isWhitespace

mutual

/-- `generate_expression`, generator.rs 160-219. -/
def generate_expression : Expr → List Char
  | .integer v => (toString v).toList ++ ("_i64").toList
  | .float f =>
    f.display ++ (if f.fractZero then (".0_f64").toList else ("_f64").toList)
  | .stringLiteral s => ['\"'] ++ escapeDefault s ++ ['\"']
  | .boolean b => if b then ("true").toList else ("false").toList
  | .identifier name => name
  | .binaryOp l op r =>
    ['('] ++ generate_expression l ++ binopText op ++ generate_expression r ++ [')']
  | .unaryOp op e => ['('] ++ unopText op ++ generate_expression e ++ [')']
  | .call callee args => callee ++ ['('] ++ generateArgs args true ++ [')']

/-- The argument loop of `Expr::Call` emission, generator.rs 209-214
(`", "` before every argument but the first). -/
def generateArgs : List Expr → Bool → List Char
  | [], _ => []
  | a :: rest, first =>
    (if first then [] else (", ").toList) ++ generate_expression a
      ++ generateArgs rest false

end

/-- The optional `: ty` annotation text of a let declaration,
generator.rs 51-53. -/
def genLetAnn : Option (List Char) → List Char
  | some a => (": ").toList ++ map_type a
  | none => []

/-- The while condition of a desugared `for`: the condition expression, or
the literal `true` when absent (generator.rs 118-122). -/
def genForCond : Option Expr → List Char
  | some c => generate_expression c
  | none => ("true").toList

/-- The trailing increment statement of a desugared `for` body,
generator.rs 130-134. -/
def genForIncr : Option Expr → Nat → List Char
  | some e, lvl => indentChars (lvl + 1) ++ generate_expression e ++ (";
").toList
  | none, _ => []

mutual

/-- `generate_statement`, generator.rs 46-157. -/
def generate_statement : Statement → Nat → List Char
  | .letDecl name ann mutable v, lvl =>
    indentChars lvl ++ ("let ").toList
      ++ (if mutable then ("mut ").toList else []) ++ name
      ++ genLetAnn ann
      ++ (" = ").toList ++ generate_expression v ++ (";\n").toList
  | .assignment name v, lvl =>
    indentChars lvl ++ name ++ (" = ").toList ++ generate_expression v
      ++ (";\n").toList
  | .exprStatement e, lvl =>
    indentChars lvl ++ generate_expression e ++ (";\n").toList
  | .ifS cond thenB elifs elseB, lvl =>
    indentChars lvl ++ ("if ").toList ++ generate_expression cond
      ++ (" ").toList ++ generate_block thenB lvl
      ++ generateElseIfs elifs lvl
      ++ genElse elseB lvl
      ++ ("\n").toList
  | .loopS b, lvl =>
    indentChars lvl ++ ("loop ").toList ++ generate_block b lvl ++ ("\n").toList
  | .whileS cond b, lvl =>
    indentChars lvl ++ ("while ").toList ++ generate_expression cond
      ++ (" ").toList ++ generate_block b lvl ++ ("\n").toList
  | .forS initializer cond incr body, lvl =>
    indentChars lvl
      ++ genForInit initializer
      ++ ("while ").toList
      ++ genForCond cond
      ++ (" ").toList
      ++ ("\x7b\n").toList
      ++ generateStatements body (lvl + 1)
      ++ genForIncr incr lvl
      ++ indentChars lvl ++ ("\x7d\n").toList
  | .print e newline, lvl =>
    indentChars lvl
      ++ (if newline then ("println!").toList else ("print!").toList)
      ++ ("(\"\x7b\x7d\", ").toList ++ generate_expression e ++ (");\n").toList
  | .breakS, lvl => indentChars lvl ++ ("break;\n").toList
  | .continueS, lvl => indentChars lvl ++ ("continue;\n").toList

/-- The regenerated initializer of a desugared `for`, emitted at indent 0
and trimmed, generator.rs 110-115. -/
def genForInit : Option Statement → List Char
  | some s => trimStart (generate_statement s 0)
  | none => []

/-- The optional terminal `else` block of an `if`, generator.rs 80-83. -/
def genElse : Option (List Statement) → Nat → List Char
  | some b, lvl => (" else ").toList ++ generate_block b lvl
  | none, _ => []

/-- Emission of a statement sequence in order, as the `for` loops over
`block.statements` / `program.statements`. -/
def generateStatements : List Statement → Nat → List Char
  | [], _ => []
  | s :: rest, lvl => generate_statement s lvl ++ generateStatements rest lvl

/-- `generate_block`, generator.rs 222-229: `{`, statements one level
deeper, closing `}` at the introducer's indent (no trailing newline). -/
def generate_block (b : List Statement) (lvl : Nat) : List Char :=
  ("\x7b\n").toList ++ generateStatements b (lvl + 1) ++ indentChars lvl
    ++ ("\x7d").toList

/-- The `else if` chain emission of `Statement::If`, generator.rs 73-78. -/
def generateElseIfs : List (Expr × List Statement) → Nat → List Char
  | [], _ => []
  | (c, b) :: rest, lvl =>
    (" else if ").toList ++ generate_expression c ++ (" ").toList
      ++ generate_block b lvl ++ generateElseIfs rest lvl

end

/-- `generate`, generator.rs 16-26: wrap the program in the entry point. -/
def generate (prog : List Statement) : List Char :=
  ("fn main() \x7b\n").toList ++ generateStatements prog 1 ++ ("\x7d\n").toList



/-! ## Auxiliary predicates for the emitter invariants -/

/-- The two brace characters of the emitted text. -/
def lbChar : Char := Char.ofNat 123

/-- Closing brace character. -/
def rbChar : Char := Char.ofNat 125

/-- A piece of embedded text containing neither brace character. -/
def braceFree (s : List Char) : Prop := lbChar ∉ s ∧ rbChar ∉ s

instance (s : List Char) : Decidable (braceFree s) := by
  unfold braceFree; infer_instance

/-- Brace balance of a character list: occurrences of `{` minus occurrences
of `}`. -/
def bd (s : List Char) : Int := (s.count lbChar : Int) - (s.count rbChar : Int)

mutual

/-- Every identifier, callee, string literal and float rendering inside the
expression is brace-free.  Identifiers and float renderings produced by the
lexer always are (they consist of word characters, digits and a dot); string
literals need not be. -/
def exprWf : Expr → Bool
  | .integer _ => true
  | .float f => decide (braceFree f.display)
  | .stringLiteral str => decide (braceFree str)
  | .boolean _ => true
  | .identifier name => decide (braceFree name)
  | .binaryOp l _ r => exprWf l && exprWf r
  | .unaryOp _ e => exprWf e
  | .call callee args => decide (braceFree callee) && exprsWf args

/-- `exprWf` over an argument list. -/
def exprsWf : List Expr → Bool
  | [] => true
  | a :: rest => exprWf a && exprsWf rest

end

/-- Brace-freedom of an optional type annotation. -/
def annWf : Option (List Char) → Bool
  | some a => decide (braceFree a)
  | none => true

/-- `exprWf` on an optional expression. -/
def optExprWf : Option Expr → Bool
  | some e => exprWf e
  | none => true

mutual

/-- Every piece of embedded text in the statement is brace-free. -/
def stmtWf : Statement → Bool
  | .letDecl name ann _ v => decide (braceFree name) && annWf ann && exprWf v
  | .assignment name v => decide (braceFree name) && exprWf v
  | .exprStatement e => exprWf e
  | .ifS cond thenB elifs elseB =>
    exprWf cond && stmtsWf thenB && elifsWf elifs && optBlockWf elseB
  | .whileS cond b => exprWf cond && stmtsWf b
  | .loopS b => stmtsWf b
  | .forS initializer cond incr body =>
    optStmtWf initializer && optExprWf cond && optExprWf incr && stmtsWf body
  | .print e _ => exprWf e
  | .breakS => true
  | .continueS => true

/-- `stmtWf` over a statement list. -/
def stmtsWf : List Statement → Bool
  | [] => true
  | st :: rest => stmtWf st && stmtsWf rest

/-- `stmtWf` over an else-if chain. -/
def elifsWf : List (Expr × List Statement) → Bool
  | [] => true
  | (c, b) :: rest => exprWf c && stmtsWf b && elifsWf rest

/-- `stmtWf` on an optional statement. -/
def optStmtWf : Option Statement → Bool
  | some s => stmtWf s
  | none => true

/-- `stmtsWf` on an optional block. -/
def optBlockWf : Option (List Statement) → Bool
  | some b => stmtsWf b
  | none => true

end

/-- Occurrence of one expression inside another (reflexive-transitive
descent through operands and call arguments). -/
inductive Subexpr : Expr → Expr → Prop where
  | refl (e : Expr) : Subexpr e e
  | binL {s l r : Expr} {op : BinaryOperator} :
      Subexpr s l → Subexpr s (Expr.binaryOp l op r)
  | binR {s l r : Expr} {op : BinaryOperator} :
      Subexpr s r → Subexpr s (Expr.binaryOp l op r)
  | un {s e : Expr} {op : UnaryOperator} :
      Subexpr s e → Subexpr s (Expr.unaryOp op e)
  | callArg {s a : Expr} {callee : List Char} {args : List Expr} :
      a ∈ args → Subexpr s a → Subexpr s (Expr.call callee args)



/-! ## Lexer lemmas: cursor monotonicity, progress, `Eof` stability -/

/-- A nonzero current byte means the cursor is inside the input. -/
theorem chAt_lt_length {input : List Nat} {pos : Nat} (h : chAt input pos ≠ 0) :
    pos < input.length := by
  by_contra hge
  refine h ?_
  simp only [chAt, List.getD]
  rw [List.get?_eq_none.mpr (by omega)]
  rfl

/-- `skip_whitespace` never moves the cursor left. -/
theorem le_skip_whitespace (input : List Nat) (fuel pos : Nat) :
    pos ≤ skip_whitespace input fuel pos := by
  induction fuel generalizing pos with
  | zero => exact Nat.le_refl pos
  | succ f ih =>
    rw [skip_whitespace]
    split
    · exact le_trans (Nat.le_succ pos) (ih (pos + 1))
    · exact Nat.le_refl pos

/-- `skip_whitespace` is the identity at the EOF byte. -/
theorem skip_whitespace_zero {input : List Nat} {pos : Nat} (fuel : Nat)
    (h : chAt input pos = 0) : skip_whitespace input fuel pos = pos := by
  cases fuel with
  | zero => rfl
  | succ f =>
    rw [skip_whitespace, if_neg]
    rw [h]
    simp [isWhitespaceByte]

/-- `skipLineBody` never moves the cursor left. -/
theorem le_skipLineBody (input : List Nat) (fuel pos : Nat) :
    pos ≤ skipLineBody input fuel pos := by
  induction fuel generalizing pos with
  | zero => exact Nat.le_refl pos
  | succ f ih =>
    rw [skipLineBody]
    split
    · exact le_trans (Nat.le_succ pos) (ih (pos + 1))
    · exact Nat.le_refl pos

/-- `skipBlockBody` never moves the cursor left. -/
theorem le_skipBlockBody (input : List Nat) (fuel pos : Nat) :
    pos ≤ skipBlockBody input fuel pos := by
  induction fuel generalizing pos with
  | zero => exact Nat.le_refl pos
  | succ f ih =>
    rw [skipBlockBody]
    split
    · exact Nat.le_refl pos
    · split
      · omega
      · exact le_trans (Nat.le_succ pos) (ih (pos + 1))

/-- `identEnd` never moves the cursor left. -/
theorem le_identEnd (input : List Nat) (fuel pos : Nat) :
    pos ≤ identEnd input fuel pos := by
  induction fuel generalizing pos with
  | zero => exact Nat.le_refl pos
  | succ f ih =>
    rw [identEnd]
    split
    · exact le_trans (Nat.le_succ pos) (ih (pos + 1))
    · exact Nat.le_refl pos

/-- `digitsEnd` never moves the cursor left. -/
theorem le_digitsEnd (input : List Nat) (fuel pos : Nat) :
    pos ≤ digitsEnd input fuel pos := by
  induction fuel generalizing pos with
  | zero => exact Nat.le_refl pos
  | succ f ih =>
    rw [digitsEnd]
    split
    · exact le_trans (Nat.le_succ pos) (ih (pos + 1))
    · exact Nat.le_refl pos

/-- The string loop ends at or right of its start. -/
theorem le_readStringLoop (input : List Nat) (fuel : Nat) : ∀ (pos : Nat)
    (acc : List Char), pos ≤ (readStringLoop input fuel pos acc).2 := by
  induction fuel with
  | zero =>
    intro pos acc
    exact Nat.le_refl pos
  | succ f ih =>
    intro pos acc
    rw [readStringLoop]
    split
    · exact Nat.le_succ pos
    · split
      · exact Nat.le_refl pos
      · split
        · exact le_trans (by omega) (ih (pos + 2) _)
        · exact le_trans (by omega) (ih (pos + 1) _)

/-- A skipped comment starts inside the input and strictly advances the
cursor. -/
theorem skip_comment_progress {input : List Nat} {pos : Nat}
    (h : (skip_comment input pos).1 = true) :
    pos < input.length ∧ pos < (skip_comment input pos).2 := by
  unfold skip_comment at h ⊢
  by_cases h1 : chAt input pos = 47 ∧ chAt input (pos + 1) = 47
  · rw [if_pos h1] at h ⊢
    refine ⟨chAt_lt_length (by omega), ?_⟩
    have hb : skipLineBody input (input.length + 1) pos =
        skipLineBody input input.length (pos + 1) := by
      rw [skipLineBody, if_pos (by omega)]
    have h2 := le_skipLineBody input input.length (pos + 1)
    have h3 := le_skip_whitespace input (input.length + 1)
      (skipLineBody input (input.length + 1) pos)
    simp only
    omega
  · rw [if_neg h1] at h ⊢
    by_cases h2 : chAt input pos = 47 ∧ chAt input (pos + 1) = 42
    · rw [if_pos h2] at h ⊢
      refine ⟨chAt_lt_length (by omega), ?_⟩
      have h3 := le_skipBlockBody input (input.length + 1) (pos + 2)
      have h4 := le_skip_whitespace input (input.length + 1)
        (skipBlockBody input (input.length + 1) (pos + 2))
      simp only
      omega
    · rw [if_neg h2] at h
      exact absurd h (by simp)

/-- A comment never starts at the EOF byte. -/
theorem skip_comment_zero {input : List Nat} {pos : Nat}
    (h : chAt input pos = 0) : skip_comment input pos = (false, pos) := by
  unfold skip_comment
  rw [if_neg (by omega), if_neg (by omega)]

/-- The comment loop never moves the cursor left. -/
theorem le_skipCommentsFuel (input : List Nat) (fuel pos : Nat) :
    pos ≤ skipCommentsFuel input fuel pos := by
  induction fuel generalizing pos with
  | zero => simp [skipCommentsFuel]
  | succ n ih =>
    rw [skipCommentsFuel]
    rcases hsc : skip_comment input pos with ⟨b, p'⟩
    cases b with
    | false => simp
    | true =>
      simp only
      have hp := @skip_comment_progress input pos (by rw [hsc])
      rw [hsc] at hp
      exact le_trans (le_of_lt hp.2) (ih p')

/-- The comment loop is the identity at the EOF byte. -/
theorem skipCommentsFuel_zero {input : List Nat} {pos : Nat} (fuel : Nat)
    (h : chAt input pos = 0) : skipCommentsFuel input fuel pos = pos := by
  cases fuel with
  | zero => rfl
  | succ n => rw [skipCommentsFuel, skip_comment_zero h]

/-- The keyword table never yields `Eof`. -/
theorem lookupIdent_ne_eof (s : List Char) : lookupIdent s ≠ Token.eof := by
  intro h
  unfold lookupIdent at h
  by_cases h0 : s = ("let").toList
  · rw [if_pos h0] at h
    exact Token.noConfusion h
  rw [if_neg h0] at h
  by_cases h1 : s = ("mut").toList
  · rw [if_pos h1] at h
    exact Token.noConfusion h
  rw [if_neg h1] at h
  by_cases h2 : s = ("if").toList
  · rw [if_pos h2] at h
    exact Token.noConfusion h
  rw [if_neg h2] at h
  by_cases h3 : s = ("else").toList
  · rw [if_pos h3] at h
    exact Token.noConfusion h
  rw [if_neg h3] at h
  by_cases h4 : s = ("loop").toList
  · rw [if_pos h4] at h
    exact Token.noConfusion h
  rw [if_neg h4] at h
  by_cases h5 : s = ("while").toList
  · rw [if_pos h5] at h
    exact Token.noConfusion h
  rw [if_neg h5] at h
  by_cases h6 : s = ("for").toList
  · rw [if_pos h6] at h
    exact Token.noConfusion h
  rw [if_neg h6] at h
  by_cases h7 : s = ("fn").toList
  · rw [if_pos h7] at h
    exact Token.noConfusion h
  rw [if_neg h7] at h
  by_cases h8 : s = ("return").toList
  · rw [if_pos h8] at h
    exact Token.noConfusion h
  rw [if_neg h8] at h
  by_cases h9 : s = ("true").toList
  · rw [if_pos h9] at h
    exact Token.noConfusion h
  rw [if_neg h9] at h
  by_cases h10 : s = ("false").toList
  · rw [if_pos h10] at h
    exact Token.noConfusion h
  rw [if_neg h10] at h
  by_cases h11 : s = ("print").toList
  · rw [if_pos h11] at h
    exact Token.noConfusion h
  rw [if_neg h11] at h
  by_cases h12 : s = ("println").toList
  · rw [if_pos h12] at h
    exact Token.noConfusion h
  rw [if_neg h12] at h
  by_cases h13 : s = ("break").toList
  · rw [if_pos h13] at h
    exact Token.noConfusion h
  rw [if_neg h13] at h
  by_cases h14 : s = ("continue").toList
  · rw [if_pos h14] at h
    exact Token.noConfusion h
  rw [if_neg h14] at h
  exact Token.noConfusion h

/-- `read_number` never yields `Eof`. -/
theorem read_number_ne_eof (input : List Nat) (pos : Nat) :
    (read_number input pos).1 ≠ Token.eof := by
  unfold read_number
  dsimp only
  split
  · exact fun h => Token.noConfusion h
  · split <;> exact fun h => Token.noConfusion h

set_option maxHeartbeats 2000000 in
/-- A non-`Eof` dispatch starts inside the input and strictly advances the
cursor. -/
theorem tokenAfterSkip_progress {input : List Nat} {pos : Nat}
    (h : (tokenAfterSkip input pos).1 ≠ Token.eof) :
    pos < input.length ∧ pos < (tokenAfterSkip input pos).2 := by
  unfold tokenAfterSkip at h ⊢
  by_cases h0 : chAt input pos = 61
  · rw [if_pos h0] at h ⊢
    refine ⟨chAt_lt_length (by omega), ?_⟩
    split <;> exact Nat.lt_succ_self pos
  rw [if_neg h0] at h ⊢
  by_cases h1 : chAt input pos = 43
  · rw [if_pos h1] at h ⊢
    exact ⟨chAt_lt_length (by omega), Nat.lt_succ_self pos⟩
  rw [if_neg h1] at h ⊢
  by_cases h2 : chAt input pos = 45
  · rw [if_pos h2] at h ⊢
    exact ⟨chAt_lt_length (by omega), Nat.lt_succ_self pos⟩
  rw [if_neg h2] at h ⊢
  by_cases h3 : chAt input pos = 33
  · rw [if_pos h3] at h ⊢
    refine ⟨chAt_lt_length (by omega), ?_⟩
    split <;> exact Nat.lt_succ_self pos
  rw [if_neg h3] at h ⊢
  by_cases h4 : chAt input pos = 42
  · rw [if_pos h4] at h ⊢
    exact ⟨chAt_lt_length (by omega), Nat.lt_succ_self pos⟩
  rw [if_neg h4] at h ⊢
  by_cases h5 : chAt input pos = 47
  · rw [if_pos h5] at h ⊢
    exact ⟨chAt_lt_length (by omega), Nat.lt_succ_self pos⟩
  rw [if_neg h5] at h ⊢
  by_cases h6 : chAt input pos = 37
  · rw [if_pos h6] at h ⊢
    exact ⟨chAt_lt_length (by omega), Nat.lt_succ_self pos⟩
  rw [if_neg h6] at h ⊢
  by_cases h7 : chAt input pos = 60
  · rw [if_pos h7] at h ⊢
    refine ⟨chAt_lt_length (by omega), ?_⟩
    split <;> exact Nat.lt_succ_self pos
  rw [if_neg h7] at h ⊢
  by_cases h8 : chAt input pos = 62
  · rw [if_pos h8] at h ⊢
    refine ⟨chAt_lt_length (by omega), ?_⟩
    split <;> exact Nat.lt_succ_self pos
  rw [if_neg h8] at h ⊢
  by_cases h9 : chAt input pos = 38
  · rw [if_pos h9] at h ⊢
    refine ⟨chAt_lt_length (by omega), ?_⟩
    split <;> exact Nat.lt_succ_self pos
  rw [if_neg h9] at h ⊢
  by_cases h10 : chAt input pos = 124
  · rw [if_pos h10] at h ⊢
    refine ⟨chAt_lt_length (by omega), ?_⟩
    split <;> exact Nat.lt_succ_self pos
  rw [if_neg h10] at h ⊢
  by_cases h11 : chAt input pos = 44
  · rw [if_pos h11] at h ⊢
    exact ⟨chAt_lt_length (by omega), Nat.lt_succ_self pos⟩
  rw [if_neg h11] at h ⊢
  by_cases h12 : chAt input pos = 59
  · rw [if_pos h12] at h ⊢
    exact ⟨chAt_lt_length (by omega), Nat.lt_succ_self pos⟩
  rw [if_neg h12] at h ⊢
  by_cases h13 : chAt input pos = 58
  · rw [if_pos h13] at h ⊢
    exact ⟨chAt_lt_length (by omega), Nat.lt_succ_self pos⟩
  rw [if_neg h13] at h ⊢
  by_cases h14 : chAt input pos = 40
  · rw [if_pos h14] at h ⊢
    exact ⟨chAt_lt_length (by omega), Nat.lt_succ_self pos⟩
  rw [if_neg h14] at h ⊢
  by_cases h15 : chAt input pos = 41
  · rw [if_pos h15] at h ⊢
    exact ⟨chAt_lt_length (by omega), Nat.lt_succ_self pos⟩
  rw [if_neg h15] at h ⊢
  by_cases h16 : chAt input pos = 123
  · rw [if_pos h16] at h ⊢
    exact ⟨chAt_lt_length (by omega), Nat.lt_succ_self pos⟩
  rw [if_neg h16] at h ⊢
  by_cases h17 : chAt input pos = 125
  · rw [if_pos h17] at h ⊢
    exact ⟨chAt_lt_length (by omega), Nat.lt_succ_self pos⟩
  rw [if_neg h17] at h ⊢
  by_cases h18 : chAt input pos = 34
  · rw [if_pos h18] at h ⊢
    rcases hrs : read_string input pos with ⟨os, pe⟩
    have hle : pos + 1 ≤ pe := by
      have hx := le_readStringLoop input (input.length + 1) (pos + 1) []
      unfold read_string at hrs
      rw [hrs] at hx
      exact hx
    refine ⟨chAt_lt_length (by omega), ?_⟩
    cases os <;> simp only <;> omega
  rw [if_neg h18] at h ⊢
  by_cases h19 : isLetterByte (chAt input pos) = true
  · rw [if_pos h19] at h ⊢
    have hz : chAt input pos ≠ 0 := by
      intro hzz
      rw [hzz] at h19
      simp [isLetterByte] at h19
    refine ⟨chAt_lt_length hz, ?_⟩
    have he : identEnd input (input.length + 1) pos =
        identEnd input input.length (pos + 1) := by
      rw [identEnd, if_pos (by simp [h19])]
    have h2 := le_identEnd input input.length (pos + 1)
    simp only
    omega
  rw [if_neg h19] at h ⊢
  by_cases h20 : isDigitByte (chAt input pos) = true
  · rw [if_pos h20] at h ⊢
    have hz : chAt input pos ≠ 0 := by
      intro hzz
      rw [hzz] at h20
      simp [isDigitByte] at h20
    refine ⟨chAt_lt_length hz, ?_⟩
    have he : digitsEnd input (input.length + 1) pos =
        digitsEnd input input.length (pos + 1) := by
      rw [digitsEnd, if_pos h20]
    have h2 := le_digitsEnd input input.length (pos + 1)
    unfold read_number
    dsimp only
    split
    · have h3 := le_digitsEnd input (input.length + 1)
        (digitsEnd input (input.length + 1) pos + 1)
      omega
    · omega
  rw [if_neg h20] at h ⊢
  by_cases h21 : chAt input pos = 0
  · rw [if_pos h21] at h ⊢
    exact absurd rfl h
  rw [if_neg h21] at h ⊢
  exact ⟨chAt_lt_length h21, Nat.lt_succ_self pos⟩

/-- Dispatch at the EOF byte produces `Eof` without moving. -/
theorem tokenAfterSkip_zero {input : List Nat} {pos : Nat}
    (h : chAt input pos = 0) : tokenAfterSkip input pos = (Token.eof, pos) := by
  unfold tokenAfterSkip
  simp [h, isLetterByte, isDigitByte]

set_option maxHeartbeats 2000000 in
/-- Only the EOF byte dispatches to `Eof`, and then the cursor stays put. -/
theorem tokenAfterSkip_eof {input : List Nat} {pos : Nat}
    (h : (tokenAfterSkip input pos).1 = Token.eof) :
    chAt input pos = 0 ∧ (tokenAfterSkip input pos).2 = pos := by
  by_cases hz : chAt input pos = 0
  · rw [tokenAfterSkip_zero hz]
    exact ⟨hz, rfl⟩
  exfalso
  unfold tokenAfterSkip at h
  by_cases h0 : chAt input pos = 61
  · rw [if_pos h0] at h
    split at h <;> exact Token.noConfusion h
  rw [if_neg h0] at h
  by_cases h1 : chAt input pos = 43
  · rw [if_pos h1] at h
    exact Token.noConfusion h
  rw [if_neg h1] at h
  by_cases h2 : chAt input pos = 45
  · rw [if_pos h2] at h
    exact Token.noConfusion h
  rw [if_neg h2] at h
  by_cases h3 : chAt input pos = 33
  · rw [if_pos h3] at h
    split at h <;> exact Token.noConfusion h
  rw [if_neg h3] at h
  by_cases h4 : chAt input pos = 42
  · rw [if_pos h4] at h
    exact Token.noConfusion h
  rw [if_neg h4] at h
  by_cases h5 : chAt input pos = 47
  · rw [if_pos h5] at h
    exact Token.noConfusion h
  rw [if_neg h5] at h
  by_cases h6 : chAt input pos = 37
  · rw [if_pos h6] at h
    exact Token.noConfusion h
  rw [if_neg h6] at h
  by_cases h7 : chAt input pos = 60
  · rw [if_pos h7] at h
    split at h <;> exact Token.noConfusion h
  rw [if_neg h7] at h
  by_cases h8 : chAt input pos = 62
  · rw [if_pos h8] at h
    split at h <;> exact Token.noConfusion h
  rw [if_neg h8] at h
  by_cases h9 : chAt input pos = 38
  · rw [if_pos h9] at h
    split at h <;> exact Token.noConfusion h
  rw [if_neg h9] at h
  by_cases h10 : chAt input pos = 124
  · rw [if_pos h10] at h
    split at h <;> exact Token.noConfusion h
  rw [if_neg h10] at h
  by_cases h11 : chAt input pos = 44
  · rw [if_pos h11] at h
    exact Token.noConfusion h
  rw [if_neg h11] at h
  by_cases h12 : chAt input pos = 59
  · rw [if_pos h12] at h
    exact Token.noConfusion h
  rw [if_neg h12] at h
  by_cases h13 : chAt input pos = 58
  · rw [if_pos h13] at h
    exact Token.noConfusion h
  rw [if_neg h13] at h
  by_cases h14 : chAt input pos = 40
  · rw [if_pos h14] at h
    exact Token.noConfusion h
  rw [if_neg h14] at h
  by_cases h15 : chAt input pos = 41
  · rw [if_pos h15] at h
    exact Token.noConfusion h
  rw [if_neg h15] at h
  by_cases h16 : chAt input pos = 123
  · rw [if_pos h16] at h
    exact Token.noConfusion h
  rw [if_neg h16] at h
  by_cases h17 : chAt input pos = 125
  · rw [if_pos h17] at h
    exact Token.noConfusion h
  rw [if_neg h17] at h
  by_cases h18 : chAt input pos = 34
  · rw [if_pos h18] at h
    rcases hrs : read_string input pos with ⟨os, pe⟩
    rw [hrs] at h
    cases os <;> exact Token.noConfusion h
  rw [if_neg h18] at h
  by_cases h19 : isLetterByte (chAt input pos) = true
  · rw [if_pos h19] at h
    exact lookupIdent_ne_eof _ h
  rw [if_neg h19] at h
  by_cases h20 : isDigitByte (chAt input pos) = true
  · rw [if_pos h20] at h
    exact read_number_ne_eof input pos h
  rw [if_neg h20] at h
  rw [if_neg hz] at h
  exact Token.noConfusion h

/-- A non-`Eof` call to `next_token` starts inside the input and strictly
advances the cursor. -/
theorem next_token_progress {input : List Nat} {pos : Nat}
    (h : (next_token input pos).1 ≠ Token.eof) :
    pos < input.length ∧ pos < (next_token input pos).2 := by
  unfold next_token at h ⊢
  have hge : pos ≤ skipCommentsFuel input (input.length + 2)
      (skip_whitespace input (input.length + 1) pos) :=
    le_trans (le_skip_whitespace input (input.length + 1) pos)
      (le_skipCommentsFuel input (input.length + 2)
        (skip_whitespace input (input.length + 1) pos))
  have hp := tokenAfterSkip_progress h
  exact ⟨by omega, by omega⟩

/-- Once `next_token` has returned `Eof` the lexer state is a fixed point:
every further call returns `Eof` again without moving. -/
theorem next_token_eof_stable {input : List Nat} {pos : Nat}
    (h : (next_token input pos).1 = Token.eof) :
    next_token input ((next_token input pos).2) =
      (Token.eof, (next_token input pos).2) := by
  unfold next_token at h ⊢
  obtain ⟨hz, hp⟩ := tokenAfterSkip_eof h
  rw [hp]
  rw [skip_whitespace_zero _ hz, skipCommentsFuel_zero _ hz, tokenAfterSkip_zero hz]

/-- Draining the lexer with ample fuel produces a list ending in `Eof`:
tokenization is total and every run ends with `Eof`. -/
theorem lexFrom_getLast (input : List Nat) (fuel pos : Nat)
    (hf : input.length - pos + 2 ≤ fuel) :
    (lexFrom input fuel pos).getLast? = some Token.eof := by
  induction fuel generalizing pos with
  | zero => omega
  | succ n ih =>
    rw [lexFrom]
    by_cases he : (next_token input pos).1 = Token.eof
    · rw [if_pos he]
      rfl
    · rw [if_neg he]
      have hp := next_token_progress he
      have hrest := ih (next_token input pos).2 (by omega)
      rcases hr : lexFrom input n (next_token input pos).2 with _ | ⟨b, bs⟩
      · rw [hr] at hrest
        exact absurd hrest (by simp)
      · rw [hr] at hrest
        rw [List.getLast?_cons_cons]
        exact hrest

/-- An `Illegal('"')` token makes `tokenize` halt with the user-visible
error (lexer.rs 404-409). -/
theorem tokenizeFuel_unterminated {input : List Nat} {pos fuel : Nat}
    (h : (next_token input pos).1 = Token.illegal '"') :
    tokenizeFuel input (fuel + 1) pos =
      Except.error (("Unterminated string literal").toList) := by
  rw [tokenizeFuel]
  simp only [h]
  rfl

/-- If no `*/` occurs at or beyond the scan start, the multi-line comment
loop consumes everything up to an EOF byte. -/
theorem skipBlockBody_no_close (input : List Nat) (fuel : Nat) :
    ∀ (p : Nat), input.length - p + 1 ≤ fuel →
    (∀ q, p ≤ q → q < input.length → ¬(chAt input q = 42 ∧ chAt input (q + 1) = 47)) →
    chAt input (skipBlockBody input fuel p) = 0 := by
  induction fuel with
  | zero =>
    intro p hf _
    omega
  | succ f ih =>
    intro p hf hcl
    rw [skipBlockBody]
    by_cases h0 : chAt input p = 0
    · rw [if_pos h0]
      exact h0
    · rw [if_neg h0]
      have hlt : p < input.length := chAt_lt_length h0
      rw [if_neg (hcl p le_rfl hlt)]
      exact ih (p + 1) (by omega) fun q hq hql => hcl q (by omega) hql

/-- Reaching EOF inside an unterminated `/* ... */` comment: the lexer
silently consumes the rest of the input and `next_token` returns `Eof`. -/
theorem next_token_unterminated_comment {input : List Nat} {pos : Nat}
    (h1 : chAt input pos = 47) (h2 : chAt input (pos + 1) = 42)
    (hcl : ∀ q, pos + 2 ≤ q → q < input.length →
      ¬(chAt input q = 42 ∧ chAt input (q + 1) = 47)) :
    (next_token input pos).1 = Token.eof := by
  unfold next_token
  have hws : skip_whitespace input (input.length + 1) pos = pos := by
    rw [skip_whitespace, if_neg]
    rw [h1]
    simp [isWhitespaceByte]
  rw [hws]
  have hblock := skipBlockBody_no_close input (input.length + 1) (pos + 2)
    (by omega) hcl
  have hsc : skip_comment input pos =
      (true, skip_whitespace input (input.length + 1)
        (skipBlockBody input (input.length + 1) (pos + 2))) := by
    unfold skip_comment
    rw [if_neg (by omega), if_pos ⟨h1, h2⟩]
  rw [skip_whitespace_zero _ hblock] at hsc
  have hrun : skipCommentsFuel input (input.length + 2) pos =
      skipBlockBody input (input.length + 1) (pos + 2) := by
    have h22 : input.length + 2 = input.length + 1 + 1 := rfl
    rw [h22]
    rw [skipCommentsFuel, hsc]
    exact skipCommentsFuel_zero _ hblock
  rw [hrun, tokenAfterSkip_zero hblock]

/-! ## Brace-balance lemmas for the emitter -/

/-- `bd` is additive over concatenation. -/
theorem bd_append (a b : List Char) : bd (a ++ b) = bd a + bd b := by
  simp only [bd, List.count_append]
  push_cast
  ring

/-- Brace-free text is balanced. -/
theorem bd_braceFree {s : List Char} (h : braceFree s) : bd s = 0 := by
  unfold bd
  rw [List.count_eq_zero.mpr h.1, List.count_eq_zero.mpr h.2]
  rfl

/-- `braceFree` over `::`. -/
theorem braceFree_cons {a : Char} {l : List Char} :
    braceFree (a :: l) ↔ (a ≠ lbChar ∧ a ≠ rbChar) ∧ braceFree l := by
  unfold braceFree
  simp only [List.mem_cons, not_or]
  constructor
  · rintro ⟨⟨h1, h2⟩, h3, h4⟩
    exact ⟨⟨fun h => h1 h.symm, fun h => h3 h.symm⟩, h2, h4⟩
  · rintro ⟨⟨h1, h3⟩, h2, h4⟩
    exact ⟨⟨fun h => h1 h.symm, h2⟩, fun h => h3 h.symm, h4⟩

/-- `braceFree` over `++`. -/
theorem braceFree_append {a b : List Char} :
    braceFree (a ++ b) ↔ braceFree a ∧ braceFree b := by
  unfold braceFree
  simp only [List.mem_append, not_or]
  tauto

/-- Indentation is all spaces, hence balanced. -/
theorem bd_indentChars (lvl : Nat) : bd (indentChars lvl) = 0 := by
  unfold bd indentChars
  rw [List.count_replicate, List.count_replicate]
  rw [if_neg (by decide), if_neg (by decide)]
  rfl

/-- Hex digits are never braces. -/
theorem hexDigitChar_ne_brace {d : Nat} (h : d < 16) :
    hexDigitChar d ≠ lbChar ∧ hexDigitChar d ≠ rbChar := by
  interval_cases d <;> exact ⟨by decide, by decide⟩

/-- Hex numerals are brace-free. -/
theorem toHex_braceFree (n : Nat) : braceFree (toHex n) := by
  induction n using toHex.induct with
  | case1 n h =>
    rw [toHex, if_pos h]
    rw [show ([hexDigitChar n] : List Char) = hexDigitChar n :: [] from rfl, braceFree_cons]
    exact ⟨hexDigitChar_ne_brace h, by unfold braceFree; simp⟩
  | case2 n h ih =>
    rw [toHex, if_neg h]
    rw [braceFree_append]
    refine ⟨ih, ?_⟩
    rw [show ([hexDigitChar (n % 16)] : List Char) = hexDigitChar (n % 16) :: [] from rfl,
      braceFree_cons]
    exact ⟨hexDigitChar_ne_brace (Nat.mod_lt _ (by omega)), by unfold braceFree; simp⟩

/-- The escape of one non-brace character is balanced (the `\u` escape
carries its own matched brace pair). -/
theorem bd_escapeDefaultChar {c : Char} (h : c ≠ lbChar ∧ c ≠ rbChar) :
    bd (escapeDefaultChar c) = 0 := by
  unfold escapeDefaultChar
  split_ifs
  iterate 6 · decide
  · unfold bd
    rw [List.count_eq_zero.mpr, List.count_eq_zero.mpr]
    · rfl
    · simp only [List.mem_singleton]
      exact fun hh => h.2 hh.symm
    · simp only [List.mem_singleton]
      exact fun hh => h.1 hh.symm
  · rw [show ('\\' :: 'u' :: Char.ofNat 123 :: ([] : List Char)) ++ toHex c.toNat ++
        [Char.ofNat 125] = ['\\', 'u', Char.ofNat 123] ++ toHex c.toNat ++ [Char.ofNat 125]
        from rfl]
    rw [bd_append, bd_append, bd_braceFree (toHex_braceFree c.toNat)]
    decide

/-- The escape of a brace-free string is balanced. -/
theorem bd_escapeDefault {s : List Char} (h : braceFree s) :
    bd (escapeDefault s) = 0 := by
  induction s with
  | nil => rfl
  | cons a t ih =>
    rw [braceFree_cons] at h
    unfold escapeDefault at ih ⊢
    rw [List.flatMap_cons, bd_append, bd_escapeDefaultChar h.1, ih h.2]
    rfl

/-- `dropWhile` by a predicate that never holds of `c` preserves the count
of `c`. -/
theorem count_dropWhile_of_ne {p : Char → Bool} {c : Char} (l : List Char)
    (h : ∀ a, p a = true → a ≠ c) : (l.dropWhile p).count c = l.count c := by
  induction l with
  | nil => rfl
  | cons a t ih =>
    rw [List.dropWhile_cons]
    split
    · rename_i hp
      rw [ih, List.count_cons_of_ne]
      intro hc
      exact (h a hp) hc.symm
    · rfl

/-- Whitespace trimming preserves the brace balance. -/
theorem bd_trimStart (s : List Char) : bd (trimStart s) = bd s := by
  unfold bd trimStart
  rw [count_dropWhile_of_ne, count_dropWhile_of_ne]
  · intro a ha
    intro hc
    rw [hc] at ha
    exact absurd ha (by decide)
  · intro a ha
    intro hc
    rw [hc] at ha
    exact absurd ha (by decide)

/-- `Nat.digitChar` never yields a brace. -/
theorem digitChar_ne_brace (n : Nat) :
    Nat.digitChar n ≠ lbChar ∧ Nat.digitChar n ≠ rbChar := by
  unfold Nat.digitChar
  by_cases h0 : n = 0
  · rw [if_pos h0]
    exact ⟨by decide, by decide⟩
  rw [if_neg h0]
  by_cases h1 : n = 1
  · rw [if_pos h1]
    exact ⟨by decide, by decide⟩
  rw [if_neg h1]
  by_cases h2 : n = 2
  · rw [if_pos h2]
    exact ⟨by decide, by decide⟩
  rw [if_neg h2]
  by_cases h3 : n = 3
  · rw [if_pos h3]
    exact ⟨by decide, by decide⟩
  rw [if_neg h3]
  by_cases h4 : n = 4
  · rw [if_pos h4]
    exact ⟨by decide, by decide⟩
  rw [if_neg h4]
  by_cases h5 : n = 5
  · rw [if_pos h5]
    exact ⟨by decide, by decide⟩
  rw [if_neg h5]
  by_cases h6 : n = 6
  · rw [if_pos h6]
    exact ⟨by decide, by decide⟩
  rw [if_neg h6]
  by_cases h7 : n = 7
  · rw [if_pos h7]
    exact ⟨by decide, by decide⟩
  rw [if_neg h7]
  by_cases h8 : n = 8
  · rw [if_pos h8]
    exact ⟨by decide, by decide⟩
  rw [if_neg h8]
  by_cases h9 : n = 9
  · rw [if_pos h9]
    exact ⟨by decide, by decide⟩
  rw [if_neg h9]
  by_cases h10 : n = 10
  · rw [if_pos h10]
    exact ⟨by decide, by decide⟩
  rw [if_neg h10]
  by_cases h11 : n = 11
  · rw [if_pos h11]
    exact ⟨by decide, by decide⟩
  rw [if_neg h11]
  by_cases h12 : n = 12
  · rw [if_pos h12]
    exact ⟨by decide, by decide⟩
  rw [if_neg h12]
  by_cases h13 : n = 13
  · rw [if_pos h13]
    exact ⟨by decide, by decide⟩
  rw [if_neg h13]
  by_cases h14 : n = 14
  · rw [if_pos h14]
    exact ⟨by decide, by decide⟩
  rw [if_neg h14]
  by_cases h15 : n = 15
  · rw [if_pos h15]
    exact ⟨by decide, by decide⟩
  rw [if_neg h15]
  exact ⟨by decide, by decide⟩

/-- `Nat.toDigitsCore` only prepends digit characters. -/
theorem toDigitsCore_braceFree (b fuel : Nat) :
    ∀ (n : Nat) (ds : List Char), braceFree ds →
      braceFree (Nat.toDigitsCore b fuel n ds) := by
  induction fuel with
  | zero =>
    intro n ds hds
    simpa [Nat.toDigitsCore] using hds
  | succ f ih =>
    intro n ds hds
    rw [Nat.toDigitsCore]
    have hcons : braceFree (Nat.digitChar (n % b) :: ds) := by
      rw [braceFree_cons]
      exact ⟨digitChar_ne_brace _, hds⟩
    split
    · exact hcons
    · exact ih _ _ hcons

/-- The decimal rendering of an `i64` value is brace-free. -/
theorem intText_braceFree (v : Int) : braceFree ((toString v).toList) := by
  have hnat : ∀ n : Nat, braceFree ((Nat.repr n).toList) := by
    intro n
    have h0 := toDigitsCore_braceFree 10 (n + 1) n [] (by unfold braceFree; simp)
    have he : (Nat.repr n).toList = Nat.toDigitsCore 10 (n + 1) n [] := rfl
    rw [he]
    exact h0
  cases v with
  | ofNat n =>
    have he : (toString (Int.ofNat n)).toList = (Nat.repr n).toList := rfl
    rw [he]
    exact hnat n
  | negSucc n =>
    have he : (toString (Int.negSucc n)).toList = '-' :: (Nat.repr (n + 1)).toList := rfl
    rw [he, braceFree_cons]
    exact ⟨⟨by decide, by decide⟩, hnat (n + 1)⟩


/-- `map_type` maps brace-free annotations to brace-free text. -/
theorem map_type_braceFree {a : List Char} (h : braceFree a) :
    braceFree (map_type a) := by
  unfold map_type
  by_cases h0 : a = ("int").toList
  · rw [if_pos h0]
    decide
  rw [if_neg h0]
  by_cases h1 : a = ("float").toList
  · rw [if_pos h1]
    decide
  rw [if_neg h1]
  by_cases h2 : a = ("bool").toList
  · rw [if_pos h2]
    decide
  rw [if_neg h2]
  by_cases h3 : a = ("string").toList
  · rw [if_pos h3]
    decide
  rw [if_neg h3]
  exact h

/-- The spelled operators contain no braces. -/
theorem bd_binopText (op : BinaryOperator) : bd (binopText op) = 0 := by
  cases op <;> decide

/-- The unary spellings contain no braces. -/
theorem bd_unopText (op : UnaryOperator) : bd (unopText op) = 0 := by
  cases op <;> decide

mutual

/-- A brace-free-literal expression emits balanced text (every brace pair
the expression emitter produces is matched). -/
theorem bd_generate_expression (e : Expr) (h : exprWf e = true) :
    bd (generate_expression e) = 0 := by
  cases e with
  | integer v =>
    simp only [generate_expression, bd_append]
    rw [bd_braceFree (intText_braceFree v)]
    decide
  | float f =>
    simp only [exprWf] at h
    simp only [generate_expression, bd_append]
    rw [bd_braceFree (of_decide_eq_true h)]
    split <;> decide
  | stringLiteral str =>
    simp only [exprWf] at h
    simp only [generate_expression, bd_append]
    rw [bd_escapeDefault (of_decide_eq_true h)]
    decide
  | boolean b =>
    simp only [generate_expression]
    split <;> decide
  | identifier name =>
    simp only [exprWf] at h
    simp only [generate_expression]
    exact bd_braceFree (of_decide_eq_true h)
  | binaryOp l op r =>
    simp only [exprWf, Bool.and_eq_true] at h
    simp only [generate_expression, bd_append]
    rw [bd_generate_expression l h.1, bd_generate_expression r h.2, bd_binopText]
    decide
  | unaryOp op e =>
    simp only [exprWf] at h
    simp only [generate_expression, bd_append]
    rw [bd_generate_expression e h, bd_unopText]
    decide
  | call callee args =>
    simp only [exprWf, Bool.and_eq_true] at h
    simp only [generate_expression, bd_append]
    rw [bd_braceFree (of_decide_eq_true h.1), bd_generateArgs args true h.2]
    decide

/-- Argument lists emit balanced text. -/
theorem bd_generateArgs (args : List Expr) (first : Bool)
    (h : exprsWf args = true) : bd (generateArgs args first) = 0 := by
  cases args with
  | nil => cases first <;> decide
  | cons a rest =>
    simp only [exprsWf, Bool.and_eq_true] at h
    simp only [generateArgs, bd_append]
    rw [bd_generate_expression a h.1, bd_generateArgs rest false h.2]
    cases first <;> decide

end


/-- The annotation text of a brace-free annotation is balanced. -/
theorem bd_genLetAnn (ann : Option (List Char)) (h : annWf ann = true) :
    bd (genLetAnn ann) = 0 := by
  cases ann with
  | none =>
    simp only [genLetAnn]
    decide
  | some a =>
    simp only [genLetAnn, bd_append]
    rw [bd_braceFree (map_type_braceFree (of_decide_eq_true h))]
    decide

/-- The while-condition text of a desugared `for` is balanced. -/
theorem bd_genForCond (cond : Option Expr) (h : optExprWf cond = true) :
    bd (genForCond cond) = 0 := by
  cases cond with
  | none =>
    simp only [genForCond]
    decide
  | some c => exact bd_generate_expression c h

/-- The increment text of a desugared `for` is balanced. -/
theorem bd_genForIncr (incr : Option Expr) (lvl : Nat)
    (h : optExprWf incr = true) :
    bd (genForIncr incr lvl) = 0 := by
  cases incr with
  | none =>
    simp only [genForIncr]
    decide
  | some e =>
    simp only [genForIncr, bd_append]
    rw [bd_indentChars, bd_generate_expression e h]
    decide

mutual

/-- A brace-free-literal statement emits balanced text: every block, the
`for` desugaring and the print format string each contribute matched brace
pairs. -/
theorem bd_generate_statement : ∀ (st : Statement) (lvl : Nat),
    stmtWf st = true → bd (generate_statement st lvl) = 0
  | .letDecl name ann mutable v, lvl, h => by
    simp only [stmtWf, Bool.and_eq_true] at h
    simp only [generate_statement, bd_append]
    rw [bd_indentChars, bd_braceFree (of_decide_eq_true h.1.1),
      bd_generate_expression v h.2, bd_genLetAnn ann h.1.2]
    cases mutable <;> decide
  | .assignment name v, lvl, h => by
    simp only [stmtWf, Bool.and_eq_true] at h
    simp only [generate_statement, bd_append]
    rw [bd_indentChars, bd_braceFree (of_decide_eq_true h.1),
      bd_generate_expression v h.2]
    decide
  | .exprStatement e, lvl, h => by
    simp only [stmtWf] at h
    simp only [generate_statement, bd_append]
    rw [bd_indentChars, bd_generate_expression e h]
    decide
  | .ifS cond thenB elifs elseB, lvl, h => by
    simp only [stmtWf, Bool.and_eq_true] at h
    simp only [generate_statement, bd_append]
    rw [bd_indentChars, bd_generate_expression cond h.1.1.1,
      bd_generate_block thenB lvl h.1.1.2, bd_generateElseIfs elifs lvl h.1.2,
      bd_genElse elseB lvl h.2]
    decide
  | .whileS cond b, lvl, h => by
    simp only [stmtWf, Bool.and_eq_true] at h
    simp only [generate_statement, bd_append]
    rw [bd_indentChars, bd_generate_expression cond h.1, bd_generate_block b lvl h.2]
    decide
  | .loopS b, lvl, h => by
    simp only [stmtWf] at h
    simp only [generate_statement, bd_append]
    rw [bd_indentChars, bd_generate_block b lvl h]
    decide
  | .forS initializer cond incr body, lvl, h => by
    simp only [stmtWf, Bool.and_eq_true] at h
    simp only [generate_statement, bd_append]
    rw [bd_indentChars, bd_genForInit initializer h.1.1.1,
      bd_genForCond cond h.1.1.2, bd_genForIncr incr lvl h.1.2,
      bd_generateStatements body (lvl + 1) h.2]
    decide
  | .print e newline, lvl, h => by
    simp only [stmtWf] at h
    simp only [generate_statement, bd_append]
    rw [bd_indentChars, bd_generate_expression e h]
    cases newline <;> decide
  | .breakS, lvl, _ => by
    simp only [generate_statement, bd_append]
    rw [bd_indentChars]
    decide
  | .continueS, lvl, _ => by
    simp only [generate_statement, bd_append]
    rw [bd_indentChars]
    decide

/-- The trimmed `for`-initializer text is balanced. -/
theorem bd_genForInit : ∀ (o : Option Statement), optStmtWf o = true →
    bd (genForInit o) = 0
  | none, _ => by
    simp only [genForInit]
    decide
  | some st, h => by
    simp only [optStmtWf] at h
    simp only [genForInit]
    rw [bd_trimStart]
    exact bd_generate_statement st 0 h

/-- The optional terminal `else` text is balanced. -/
theorem bd_genElse : ∀ (o : Option (List Statement)) (lvl : Nat),
    optBlockWf o = true → bd (genElse o lvl) = 0
  | none, lvl, _ => by
    simp only [genElse]
    decide
  | some b, lvl, h => by
    simp only [optBlockWf] at h
    simp only [genElse, bd_append]
    rw [bd_generate_block b lvl h]
    decide

/-- Statement sequences emit balanced text. -/
theorem bd_generateStatements : ∀ (l : List Statement) (lvl : Nat),
    stmtsWf l = true → bd (generateStatements l lvl) = 0
  | [], lvl, _ => by
    simp only [generateStatements]
    decide
  | st :: rest, lvl, h => by
    simp only [stmtsWf, Bool.and_eq_true] at h
    simp only [generateStatements, bd_append]
    rw [bd_generate_statement st lvl h.1, bd_generateStatements rest lvl h.2]
    decide

/-- `generate_block` emits its `{` and `}` as a matched pair. -/
theorem bd_generate_block (b : List Statement) (lvl : Nat)
    (h : stmtsWf b = true) : bd (generate_block b lvl) = 0 := by
  unfold generate_block
  simp only [bd_append]
  rw [bd_indentChars, bd_generateStatements b (lvl + 1) h]
  decide

/-- Else-if chains emit balanced text. -/
theorem bd_generateElseIfs : ∀ (l : List (Expr × List Statement)) (lvl : Nat),
    elifsWf l = true → bd (generateElseIfs l lvl) = 0
  | [], lvl, _ => by
    simp only [generateElseIfs]
    decide
  | (c, b) :: rest, lvl, h => by
    simp only [elifsWf, Bool.and_eq_true] at h
    simp only [generateElseIfs, bd_append]
    rw [bd_generate_expression c h.1.1, bd_generate_block b lvl h.1.2,
      bd_generateElseIfs rest lvl h.2]
    decide

end

/-- A program whose embedded string/identifier text is brace-free emits a
string with brace balance zero. -/
theorem bd_generate (prog : List Statement) (h : stmtsWf prog = true) :
    bd (generate prog) = 0 := by
  unfold generate
  simp only [bd_append]
  rw [bd_generateStatements prog 1 h]
  decide


/-! ## Compositional emission: a subexpression's text occurs contiguously -/

/-- Every argument's emission occurs contiguously in the emitted argument
list. -/
theorem generateArgs_infix {a : Expr} : ∀ (args : List Expr) (first : Bool),
    a ∈ args →
    ∃ pre post, generateArgs args first = pre ++ generate_expression a ++ post
  | [], _, h => absurd h (List.not_mem_nil a)
  | b :: rest, first, h => by
    rcases List.mem_cons.mp h with heq | hmem
    · subst heq
      exact ⟨(if first then [] else (", ").toList), generateArgs rest false, by
        simp [generateArgs, List.append_assoc]⟩
    · obtain ⟨pre, post, hp⟩ := generateArgs_infix rest false hmem
      exact ⟨(if first then [] else (", ").toList) ++ generate_expression b ++ pre,
        post, by simp [generateArgs, hp, List.append_assoc]⟩

/-- The emitted text of any subexpression occurs contiguously inside the
emitted text of the whole expression, so the parenthesized form of every
`BinaryOp`/`UnaryOp` node appears verbatim in the output. -/
theorem generate_expression_infix {s e : Expr} (h : Subexpr s e) :
    ∃ pre post, generate_expression e = pre ++ generate_expression s ++ post := by
  induction h with
  | refl => exact ⟨[], [], by simp⟩
  | @binL l r op hsub ih =>
    obtain ⟨pre, post, hp⟩ := ih
    exact ⟨'(' :: pre,
      post ++ binopText op ++ generate_expression r ++ [')'], by
        simp [generate_expression, hp, List.append_assoc]⟩
  | @binR l r op hsub ih =>
    obtain ⟨pre, post, hp⟩ := ih
    exact ⟨'(' :: (generate_expression l ++ binopText op ++ pre),
      post ++ [')'], by simp [generate_expression, hp, List.append_assoc]⟩
  | @un e op hsub ih =>
    obtain ⟨pre, post, hp⟩ := ih
    exact ⟨'(' :: (unopText op ++ pre), post ++ [')'], by
      simp [generate_expression, hp, List.append_assoc]⟩
  | @callArg a callee args hmem hsub ih =>
    obtain ⟨pre, post, hp⟩ := ih
    obtain ⟨pre2, post2, hp2⟩ := generateArgs_infix args true hmem
    exact ⟨callee ++ ['('] ++ pre2 ++ pre, post ++ post2 ++ [')'], by
      simp [generate_expression, hp2, hp, List.append_assoc]⟩

/-- Claim C2: the right-hand side of `let v = (1 + 2) * 3 - 4 / 2 % 3;`
parses as a `BinaryOp` whose outermost operator is `Minus` with left
`((1+2)*3)` and right `((4/2)%3)`; every listed binary operator parses
left-associatively (shown on `1 op 2 op 3` for each of the thirteen
operators); a higher-precedence operator binds tighter than a lower one
(shown in both directions for each adjacent pair of binary precedence
levels, plus unary minus over `*` and a call over `+`); and the precedence
ranks form the chain LOWEST < OR < AND < EQUALS < LESSGREATER < SUM <
PRODUCT < PREFIX < CALL. -/
theorem claim_c2_precedence_and_associativity :
    (parse_program (lexAll (("let v = (1 + 2) * 3 - 4 / 2 % 3;").toBytes)) 100 =
      Except.ok [Statement.letDecl (("v").toList) none false
        (Expr.binaryOp
          (Expr.binaryOp
            (Expr.binaryOp (Expr.integer 1) BinaryOperator.plus (Expr.integer 2))
            BinaryOperator.multiply (Expr.integer 3))
          BinaryOperator.minus
          (Expr.binaryOp
            (Expr.binaryOp (Expr.integer 4) BinaryOperator.divide (Expr.integer 2))
            BinaryOperator.modulo (Expr.integer 3)))])
    ∧ (parse_program [Token.integer 1, Token.plus, Token.integer 2, Token.plus, Token.integer 3] 20 =
      Except.ok [Statement.exprStatement (Expr.binaryOp
        (Expr.binaryOp (Expr.integer 1) BinaryOperator.plus (Expr.integer 2))
        BinaryOperator.plus (Expr.integer 3))])
    ∧ (parse_program [Token.integer 1, Token.minus, Token.integer 2, Token.minus, Token.integer 3] 20 =
      Except.ok [Statement.exprStatement (Expr.binaryOp
        (Expr.binaryOp (Expr.integer 1) BinaryOperator.minus (Expr.integer 2))
        BinaryOperator.minus (Expr.integer 3))])
    ∧ (parse_program [Token.integer 1, Token.multiply, Token.integer 2, Token.multiply, Token.integer 3] 20 =
      Except.ok [Statement.exprStatement (Expr.binaryOp
        (Expr.binaryOp (Expr.integer 1) BinaryOperator.multiply (Expr.integer 2))
        BinaryOperator.multiply (Expr.integer 3))])
    ∧ (parse_program [Token.integer 1, Token.divide, Token.integer 2, Token.divide, Token.integer 3] 20 =
      Except.ok [Statement.exprStatement (Expr.binaryOp
        (Expr.binaryOp (Expr.integer 1) BinaryOperator.divide (Expr.integer 2))
        BinaryOperator.divide (Expr.integer 3))])
    ∧ (parse_program [Token.integer 1, Token.modulo, Token.integer 2, Token.modulo, Token.integer 3] 20 =
      Except.ok [Statement.exprStatement (Expr.binaryOp
        (Expr.binaryOp (Expr.integer 1) BinaryOperator.modulo (Expr.integer 2))
        BinaryOperator.modulo (Expr.integer 3))])
    ∧ (parse_program [Token.integer 1, Token.eq, Token.integer 2, Token.eq, Token.integer 3] 20 =
      Except.ok [Statement.exprStatement (Expr.binaryOp
        (Expr.binaryOp (Expr.integer 1) BinaryOperator.eq (Expr.integer 2))
        BinaryOperator.eq (Expr.integer 3))])
    ∧ (parse_program [Token.integer 1, Token.notEq, Token.integer 2, Token.notEq, Token.integer 3] 20 =
      Except.ok [Statement.exprStatement (Expr.binaryOp
        (Expr.binaryOp (Expr.integer 1) BinaryOperator.notEq (Expr.integer 2))
        BinaryOperator.notEq (Expr.integer 3))])
    ∧ (parse_program [Token.integer 1, Token.lt, Token.integer 2, Token.lt, Token.integer 3] 20 =
      Except.ok [Statement.exprStatement (Expr.binaryOp
        (Expr.binaryOp (Expr.integer 1) BinaryOperator.lt (Expr.integer 2))
        BinaryOperator.lt (Expr.integer 3))])
    ∧ (parse_program [Token.integer 1, Token.lte, Token.integer 2, Token.lte, Token.integer 3] 20 =
      Except.ok [Statement.exprStatement (Expr.binaryOp
        (Expr.binaryOp (Expr.integer 1) BinaryOperator.lte (Expr.integer 2))
        BinaryOperator.lte (Expr.integer 3))])
    ∧ (parse_program [Token.integer 1, Token.gt, Token.integer 2, Token.gt, Token.integer 3] 20 =
      Except.ok [Statement.exprStatement (Expr.binaryOp
        (Expr.binaryOp (Expr.integer 1) BinaryOperator.gt (Expr.integer 2))
        BinaryOperator.gt (Expr.integer 3))])
    ∧ (parse_program [Token.integer 1, Token.gte, Token.integer 2, Token.gte, Token.integer 3] 20 =
      Except.ok [Statement.exprStatement (Expr.binaryOp
        (Expr.binaryOp (Expr.integer 1) BinaryOperator.gte (Expr.integer 2))
        BinaryOperator.gte (Expr.integer 3))])
    ∧ (parse_program [Token.integer 1, Token.and, Token.integer 2, Token.and, Token.integer 3] 20 =
      Except.ok [Statement.exprStatement (Expr.binaryOp
        (Expr.binaryOp (Expr.integer 1) BinaryOperator.and (Expr.integer 2))
        BinaryOperator.and (Expr.integer 3))])
    ∧ (parse_program [Token.integer 1, Token.or, Token.integer 2, Token.or, Token.integer 3] 20 =
      Except.ok [Statement.exprStatement (Expr.binaryOp
        (Expr.binaryOp (Expr.integer 1) BinaryOperator.or (Expr.integer 2))
        BinaryOperator.or (Expr.integer 3))])
    ∧ (parse_program [Token.integer 1, Token.or, Token.integer 2, Token.and, Token.integer 3] 20 =
      Except.ok [Statement.exprStatement (Expr.binaryOp (Expr.integer 1)
        BinaryOperator.or
        (Expr.binaryOp (Expr.integer 2) BinaryOperator.and (Expr.integer 3)))])
    ∧ (parse_program [Token.integer 1, Token.and, Token.integer 2, Token.or, Token.integer 3] 20 =
      Except.ok [Statement.exprStatement (Expr.binaryOp
        (Expr.binaryOp (Expr.integer 1) BinaryOperator.and (Expr.integer 2))
        BinaryOperator.or (Expr.integer 3))])
    ∧ (parse_program [Token.integer 1, Token.and, Token.integer 2, Token.eq, Token.integer 3] 20 =
      Except.ok [Statement.exprStatement (Expr.binaryOp (Expr.integer 1)
        BinaryOperator.and
        (Expr.binaryOp (Expr.integer 2) BinaryOperator.eq (Expr.integer 3)))])
    ∧ (parse_program [Token.integer 1, Token.eq, Token.integer 2, Token.and, Token.integer 3] 20 =
      Except.ok [Statement.exprStatement (Expr.binaryOp
        (Expr.binaryOp (Expr.integer 1) BinaryOperator.eq (Expr.integer 2))
        BinaryOperator.and (Expr.integer 3))])
    ∧ (parse_program [Token.integer 1, Token.eq, Token.integer 2, Token.lt, Token.integer 3] 20 =
      Except.ok [Statement.exprStatement (Expr.binaryOp (Expr.integer 1)
        BinaryOperator.eq
        (Expr.binaryOp (Expr.integer 2) BinaryOperator.lt (Expr.integer 3)))])
    ∧ (parse_program [Token.integer 1, Token.lt, Token.integer 2, Token.eq, Token.integer 3] 20 =
      Except.ok [Statement.exprStatement (Expr.binaryOp
        (Expr.binaryOp (Expr.integer 1) BinaryOperator.lt (Expr.integer 2))
        BinaryOperator.eq (Expr.integer 3))])
    ∧ (parse_program [Token.integer 1, Token.lt, Token.integer 2, Token.plus, Token.integer 3] 20 =
      Except.ok [Statement.exprStatement (Expr.binaryOp (Expr.integer 1)
        BinaryOperator.lt
        (Expr.binaryOp (Expr.integer 2) BinaryOperator.plus (Expr.integer 3)))])
    ∧ (parse_program [Token.integer 1, Token.plus, Token.integer 2, Token.lt, Token.integer 3] 20 =
      Except.ok [Statement.exprStatement (Expr.binaryOp
        (Expr.binaryOp (Expr.integer 1) BinaryOperator.plus (Expr.integer 2))
        BinaryOperator.lt (Expr.integer 3))])
    ∧ (parse_program [Token.integer 1, Token.plus, Token.integer 2, Token.multiply, Token.integer 3] 20 =
      Except.ok [Statement.exprStatement (Expr.binaryOp (Expr.integer 1)
        BinaryOperator.plus
        (Expr.binaryOp (Expr.integer 2) BinaryOperator.multiply (Expr.integer 3)))])
    ∧ (parse_program [Token.integer 1, Token.multiply, Token.integer 2, Token.plus, Token.integer 3] 20 =
      Except.ok [Statement.exprStatement (Expr.binaryOp
        (Expr.binaryOp (Expr.integer 1) BinaryOperator.multiply (Expr.integer 2))
        BinaryOperator.plus (Expr.integer 3))])
    ∧ (parse_program [Token.minus, Token.identifier (("a").toList), Token.multiply,
        Token.identifier (("b").toList)] 20 =
      Except.ok [Statement.exprStatement (Expr.binaryOp
        (Expr.unaryOp UnaryOperator.negate (Expr.identifier (("a").toList)))
        BinaryOperator.multiply (Expr.identifier (("b").toList)))])
    ∧ (parse_program [Token.identifier (("a").toList), Token.plus,
        Token.identifier (("f").toList), Token.lparen,
        Token.identifier (("b").toList), Token.rparen] 20 =
      Except.ok [Statement.exprStatement (Expr.binaryOp
        (Expr.identifier (("a").toList)) BinaryOperator.plus
        (Expr.call (("f").toList) [Expr.identifier (("b").toList)]))])
    ∧ ((Precedence.lowest.val < Precedence.orP.val ∧
      Precedence.orP.val < Precedence.andP.val ∧
      Precedence.andP.val < Precedence.equals.val ∧
      Precedence.equals.val < Precedence.lessgreater.val ∧
      Precedence.lessgreater.val < Precedence.sum.val ∧
      Precedence.sum.val < Precedence.product.val ∧
      Precedence.product.val < Precedence.prefixP.val ∧
      Precedence.prefixP.val < Precedence.callP.val)) :=
  ⟨rfl, rfl, rfl, rfl, rfl, rfl, rfl, rfl, rfl, rfl, rfl, rfl, rfl, rfl, rfl, rfl, rfl, rfl, rfl, rfl, rfl, rfl, rfl, rfl, rfl, rfl, by decide⟩



/-- Claim C1 (code divergence): the two-character operator lexemes are NOT
fully consumed.  For each of `==`, `!=`, `<=`, `>=`, `&&`, `||` the lexer
emits the two-character operator token but advances the cursor by only one
byte (the branch's single `read_char` plus `current_char_consumed = false`
at lexer.rs 380-392), so the second byte is lexed again: `"=="` yields
`[Eq, Assign, Eof]` instead of the claimed `[Eq, Eof]`, and after the `Eq`
of `"=="` the cursor stands at offset 1, on the second `=`, not at 2. -/
theorem claim_c1_two_char_operator_divergence :
    lexAll (("==").toBytes) = [Token.eq, Token.assign, Token.eof]
  ∧ lexAll (("!=").toBytes) = [Token.notEq, Token.assign, Token.eof]
  ∧ lexAll (("<=").toBytes) = [Token.lte, Token.assign, Token.eof]
  ∧ lexAll ((">=").toBytes) = [Token.gte, Token.assign, Token.eof]
  ∧ lexAll (("&&").toBytes) = [Token.and, Token.illegal '&', Token.eof]
  ∧ lexAll (("||").toBytes) = [Token.or, Token.illegal '|', Token.eof]
  ∧ next_token (("==").toBytes) 0 = (Token.eq, 1)
  ∧ lexAll (("==").toBytes) ≠ [Token.eq, Token.eof] :=
  ⟨rfl, rfl, rfl, rfl, rfl, rfl, rfl, by decide⟩

/-- Claim C4 (code divergence): a `for` header with an omitted increment
does not parse.  After the second mandatory `;` the empty-increment test
compares against `RParen` (parser.rs 443), so for `for ;; { break }` and
`for ; i < 10 ; { i = i + 1 }` the parser calls `parse_expression` on the
body's `{`, pushes a "No prefix parse function" error, and `parse_program`
returns `Err` — not the claimed `Ok` with `increment = None`. -/
theorem claim_c4_for_empty_increment_divergence :
    parse_program (lexAll (("for ;; \x7b break \x7d").toBytes)) 100 =
      Except.error [msgNoPrefix]
  ∧ parse_program (lexAll (("for ; i < 10 ; \x7b i = i + 1 \x7d").toBytes)) 100 =
      Except.error [msgNoPrefix] :=
  ⟨rfl, rfl⟩

/-- Claim C5, counterexample: the AST parsed from `let x = "{"` — a
successful parse — emits a string with two `{` characters (the entry
point's and the literal's) but only one `}`, because `escape_default`
leaves a printable `{` unescaped (generator.rs 171). -/
theorem claim_c5_counterexample :
    parse_program (lexAll (("let x = \"\x7b\"").toBytes)) 100 =
      Except.ok [Statement.letDecl (("x").toList) none false
        (Expr.stringLiteral ['\x7b'])]
  ∧ (generate [Statement.letDecl (("x").toList) none false
      (Expr.stringLiteral ['\x7b'])]).count lbChar = 2
  ∧ (generate [Statement.letDecl (("x").toList) none false
      (Expr.stringLiteral ['\x7b'])]).count rbChar = 1 := by
  refine ⟨rfl, ?_, ?_⟩ <;>
    (simp only [generate, generateStatements, generate_statement, genLetAnn,
      generate_expression]
     decide)

/-- Claim C5, amended: for every AST in which no string literal, float
rendering, identifier, or type annotation contains a brace character — in
particular every successfully parsed AST whose string literals are
brace-free, since lexed identifiers and numerals consist of word
characters — the emitted string has equal counts of `{` and `}`. -/
theorem claim_c5_brace_balance (prog : List Statement)
    (h : stmtsWf prog = true) :
    (generate prog).count lbChar = (generate prog).count rbChar := by
  have hb := bd_generate prog h
  unfold bd at hb
  omega

/-- Witness for the amended C5 on a concrete program. -/
theorem claim_c5_brace_balance_witness :
    stmtsWf [Statement.ifS (Expr.boolean true)
        [Statement.print (Expr.stringLiteral (("hi").toList)) true] [] none] = true
  ∧ (generate [Statement.ifS (Expr.boolean true)
        [Statement.print (Expr.stringLiteral (("hi").toList)) true] [] none]).count lbChar =
      (generate [Statement.ifS (Expr.boolean true)
        [Statement.print (Expr.stringLiteral (("hi").toList)) true] [] none]).count rbChar :=
  ⟨by decide, claim_c5_brace_balance _ (by decide)⟩

/-- Claim C3: the emitter wraps every `BinaryOp` output as `(lhs OP rhs)`
and every `UnaryOp` output as `(OP operand)`, each in its own parenthesis
pair regardless of precedence; and since emission is compositional — the
emitted text of every subexpression occurs contiguously inside the emitted
text of the whole — every binary or unary application anywhere in the tree
appears parenthesized in the generated string. -/
theorem claim_c3_full_parenthesization :
    (∀ (l : Expr) (op : BinaryOperator) (r : Expr),
      generate_expression (Expr.binaryOp l op r) =
        ['('] ++ generate_expression l ++ binopText op
          ++ generate_expression r ++ [')'])
  ∧ (∀ (op : UnaryOperator) (e : Expr),
      generate_expression (Expr.unaryOp op e) =
        ['('] ++ unopText op ++ generate_expression e ++ [')'])
  ∧ (∀ (e s : Expr), Subexpr s e → ∃ pre post,
      generate_expression e = pre ++ generate_expression s ++ post) :=
  ⟨fun l op r => by simp only [generate_expression],
   fun op e => by simp only [generate_expression],
   fun _ _ h => generate_expression_infix h⟩

/-- Witness for C3 at a concrete nested expression. -/
theorem claim_c3_witness :
    ∃ pre post,
      generate_expression (Expr.unaryOp UnaryOperator.not
        (Expr.binaryOp (Expr.integer 1) BinaryOperator.plus (Expr.integer 2))) =
        pre ++ generate_expression
          (Expr.binaryOp (Expr.integer 1) BinaryOperator.plus (Expr.integer 2)) ++ post :=
  claim_c3_full_parenthesization.2.2 _ _ (Subexpr.un (Subexpr.refl _))

/-- Claim C9: the emitter desugars every `For` node instead of emitting a
native loop — the (trimmed, indent-0) initializer text precedes a `while`
whose condition is the node's condition or the literal `true` when absent,
and the increment, when present, is the final statement inside the body —
shown as the full decomposition of the `For` arm of `generate_statement`
together with the defining equations of its three optional parts, and
instantiated on a concrete loop. -/
theorem claim_c9_for_desugaring :
    (∀ (initializer : Option Statement) (cond incr : Option Expr)
        (body : List Statement) (lvl : Nat),
      generate_statement (Statement.forS initializer cond incr body) lvl =
        indentChars lvl ++ genForInit initializer ++ ("while ").toList
          ++ genForCond cond ++ (" ").toList ++ ("\x7b\n").toList
          ++ generateStatements body (lvl + 1) ++ genForIncr incr lvl
          ++ indentChars lvl ++ ("\x7d\n").toList)
  ∧ genForCond none = ("true").toList
  ∧ (∀ c, genForCond (some c) = generate_expression c)
  ∧ genForInit none = []
  ∧ (∀ st, genForInit (some st) = trimStart (generate_statement st 0))
  ∧ (∀ lvl, genForIncr none lvl = [])
  ∧ (∀ e lvl, genForIncr (some e) lvl =
      indentChars (lvl + 1) ++ generate_expression e ++ (";\n").toList)
  ∧ generate_statement (Statement.forS
      (some (Statement.letDecl (("i").toList) none false (Expr.integer 0)))
      (some (Expr.binaryOp (Expr.identifier (("i").toList)) BinaryOperator.lt
        (Expr.integer 3)))
      (some (Expr.identifier (("i").toList)))
      [Statement.print (Expr.identifier (("i").toList)) true]) 1 =
    ("    let i = 0_i64;\nwhile (i < 3_i64) \x7b\n        println!(\"\x7b\x7d\", i);\n        i;\n    \x7d\n").toList := by
  refine ⟨fun initializer cond incr body lvl => by simp only [generate_statement],
    rfl, fun c => rfl, by simp only [genForInit], fun st => by simp only [genForInit],
    fun lvl => rfl, fun e lvl => rfl, ?_⟩
  simp only [generate_statement, generateStatements, generate_expression,
    genForInit, genForCond, genForIncr, genLetAnn]
  decide


/-- Claim C6: lexing is total — with ample fuel the drained token stream is
finite and ends in `Eof`; every non-`Eof` call starts inside the input and
strictly advances the cursor; and once `Eof` is returned the lexer is a
fixed point, every further call returning `Eof` without moving. -/
theorem claim_c6_totality_progress_eof_stability :
    (∀ (input : List Nat) (pos : Nat),
      (next_token input pos).1 ≠ Token.eof →
      pos < input.length ∧ pos < (next_token input pos).2)
  ∧ (∀ (input : List Nat) (pos : Nat),
      (next_token input pos).1 = Token.eof →
      next_token input ((next_token input pos).2) =
        (Token.eof, (next_token input pos).2))
  ∧ (∀ input : List Nat, (lexAll input).getLast? = some Token.eof) :=
  ⟨fun _ _ h => next_token_progress h,
   fun _ _ h => next_token_eof_stable h,
   fun input => lexFrom_getLast input (input.length + 2) 0 (by omega)⟩

/-- Witness for C6 on concrete inputs: progress on `"a"`, `Eof` stability on
the empty input, and the `Eof`-terminated drain of `"ab"`. -/
theorem claim_c6_witness :
    (0 < (("a").toBytes).length ∧ 0 < (next_token (("a").toBytes) 0).2)
  ∧ next_token ([] : List Nat) ((next_token ([] : List Nat) 0).2) =
      (Token.eof, (next_token ([] : List Nat) 0).2)
  ∧ (lexAll (("ab").toBytes)).getLast? = some Token.eof :=
  ⟨claim_c6_totality_progress_eof_stability.1 _ 0 (by decide),
   claim_c6_totality_progress_eof_stability.2.1 [] 0 (by decide),
   claim_c6_totality_progress_eof_stability.2.2 (("ab").toBytes)⟩

/-- Claim C7: a string literal opened with `"` but unclosed at end of input
makes `next_token` return `Illegal('"')` (lexer.rs 264-270), `tokenize`
halts on that token with the error "Unterminated string literal"
(lexer.rs 404-409), and a concrete such input produces exactly that
error. -/
theorem claim_c7_unterminated_string :
    (∀ (input : List Nat) (pos p : Nat),
      chAt input pos = 34 → read_string input pos = (none, p) →
      next_token input pos = (Token.illegal '\"', p + 1))
  ∧ (∀ (input : List Nat) (pos fuel : Nat),
      (next_token input pos).1 = Token.illegal '\"' →
      tokenizeFuel input (fuel + 1) pos =
        Except.error (("Unterminated string literal").toList))
  ∧ tokenize (("let s = \"abc").toBytes) =
      Except.error (("Unterminated string literal").toList) := by
  refine ⟨?_, fun _ _ _ h => tokenizeFuel_unterminated h, rfl⟩
  intro input pos p h hrs
  unfold next_token
  have hws : skip_whitespace input (input.length + 1) pos = pos := by
    rw [skip_whitespace, if_neg]
    rw [h]
    decide
  rw [hws]
  have hsc : skip_comment input pos = (false, pos) := by
    unfold skip_comment
    rw [if_neg (by rintro ⟨hc, -⟩; rw [h] at hc; exact absurd hc (by decide)),
        if_neg (by rintro ⟨hc, -⟩; rw [h] at hc; exact absurd hc (by decide))]
  have hcf : skipCommentsFuel input (input.length + 2) pos = pos := by
    rw [skipCommentsFuel, hsc]
  rw [hcf]
  unfold tokenAfterSkip
  rw [if_neg (show ¬(chAt input pos = 61) by rw [h]; decide)]
  rw [if_neg (show ¬(chAt input pos = 43) by rw [h]; decide)]
  rw [if_neg (show ¬(chAt input pos = 45) by rw [h]; decide)]
  rw [if_neg (show ¬(chAt input pos = 33) by rw [h]; decide)]
  rw [if_neg (show ¬(chAt input pos = 42) by rw [h]; decide)]
  rw [if_neg (show ¬(chAt input pos = 47) by rw [h]; decide)]
  rw [if_neg (show ¬(chAt input pos = 37) by rw [h]; decide)]
  rw [if_neg (show ¬(chAt input pos = 60) by rw [h]; decide)]
  rw [if_neg (show ¬(chAt input pos = 62) by rw [h]; decide)]
  rw [if_neg (show ¬(chAt input pos = 38) by rw [h]; decide)]
  rw [if_neg (show ¬(chAt input pos = 124) by rw [h]; decide)]
  rw [if_neg (show ¬(chAt input pos = 44) by rw [h]; decide)]
  rw [if_neg (show ¬(chAt input pos = 59) by rw [h]; decide)]
  rw [if_neg (show ¬(chAt input pos = 58) by rw [h]; decide)]
  rw [if_neg (show ¬(chAt input pos = 40) by rw [h]; decide)]
  rw [if_neg (show ¬(chAt input pos = 41) by rw [h]; decide)]
  rw [if_neg (show ¬(chAt input pos = 123) by rw [h]; decide)]
  rw [if_neg (show ¬(chAt input pos = 125) by rw [h]; decide)]
  rw [if_pos h, hrs]

/-- Witness for C7 at the input `"abc` (opening quote, no closing quote). -/
theorem claim_c7_witness :
    next_token (("\"abc").toBytes) 0 = (Token.illegal '\"', 5)
  ∧ tokenizeFuel (("\"abc").toBytes) 1 0 =
      Except.error (("Unterminated string literal").toList) :=
  ⟨claim_c7_unterminated_string.1 _ 0 4 (by decide) (by decide),
   claim_c7_unterminated_string.2.1 _ 0 0 (by decide)⟩

/-- Claim C8: end of input inside an unterminated `/* ... */` comment is
silently consumed — when the cursor stands on `/*` and no `*/` occurs in
the rest of the input, `next_token` returns `Eof`; for the concrete input
`/* unterminated`, tokenization yields just `[Eof]` and `parse_program`
returns `Ok` with an empty statement list and no error. -/
theorem claim_c8_unterminated_comment :
    (∀ (input : List Nat) (pos : Nat),
      chAt input pos = 47 → chAt input (pos + 1) = 42 →
      (∀ q, q < input.length → pos + 2 ≤ q →
        ¬(chAt input q = 42 ∧ chAt input (q + 1) = 47)) →
      (next_token input pos).1 = Token.eof)
  ∧ lexAll (("/* unterminated").toBytes) = [Token.eof]
  ∧ tokenize (("/* unterminated").toBytes) = Except.ok [Token.eof]
  ∧ parse_program (lexAll (("/* unterminated").toBytes)) 100 =
      Except.ok [] :=
  ⟨fun _ _ h1 h2 hcl =>
    next_token_unterminated_comment h1 h2 fun q hq hql => hcl q hql hq,
   by decide, rfl, rfl⟩

/-- Witness for C8 at the input `/*ab`. -/
theorem claim_c8_witness :
    (next_token (("/*ab").toBytes) 0).1 = Token.eof :=
  claim_c8_unterminated_comment.1 _ 0 (by decide) (by decide) (by decide)

/-- Claim C10: an all-digit lexeme whose value exceeds `i64::MAX`
(9223372036854775807) makes `read_number` silently produce
`Token::Integer(0)` (the `unwrap_or(0)` of lexer.rs 164) rather than an
error or `Illegal` token; concretely `9999999999999999999` lexes to
`[Integer 0, Eof]` while `i64::MAX` itself still lexes exactly. -/
theorem claim_c10_integer_overflow :
    (∀ (input : List Nat) (pos : Nat),
      ¬(chAt input (digitsEnd input (input.length + 1) pos) = 46 ∧
        isDigitByte (chAt input
          (digitsEnd input (input.length + 1) pos + 1)) = true) →
      9223372036854775807 <
        digitsVal (slice input pos (digitsEnd input (input.length + 1) pos)) →
      (read_number input pos).1 = Token.integer 0)
  ∧ lexAll (("9999999999999999999").toBytes) = [Token.integer 0, Token.eof]
  ∧ lexAll (("9223372036854775807").toBytes) =
      [Token.integer 9223372036854775807, Token.eof] := by
  refine ⟨?_, by decide, by decide⟩
  intro input pos hnf hov
  simp only [read_number]
  rw [if_neg hnf, if_neg (by omega)]

/-- Witness for C10 at the overflowing numeral `9999999999999999999`. -/
theorem claim_c10_witness :
    (read_number (("9999999999999999999").toBytes) 0).1 = Token.integer 0 :=
  claim_c10_integer_overflow.1 _ 0 (by decide) (by decide)

end Zeno

